import Mathlib

/-!
# Verification of the Titanic preprocessing pipeline

A shallow embedding of the data-cleaning, imputation and feature-engineering
code of the repository (`src/data_loader.py`, `src/features.py`), together
with proofs and refutations of the specified properties.

A pandas `DataFrame` is modelled as an ordered association list of named
columns; a cell is `Option Val`, with `none` playing the role of `NaN`.
Floating-point values are modelled as rationals; none of the verified
properties depends on rounding.  The scikit-learn `IterativeImputer` is an
external collaborator and enters as a function parameter.
-/

/-- A cell value: either a string or a number. -/
inductive Val where
  | str (s : String)
  | num (q : ℚ)
deriving DecidableEq, Repr

/-- One cell of a data frame; `none` models a missing value (`NaN`). -/
abbrev Cell := Option Val

/-- A data frame: an ordered association list of named columns. -/
structure Table where
  cols : List (String × List Cell)
deriving DecidableEq, Repr

namespace Table

/-- Membership test `c in df.columns`. -/
def hasCol (t : Table) (c : String) : Bool :=
  t.cols.any (fun p => p.1 == c)

/-- The values of column `c` (`df[c]`); `[]` when the column is absent. -/
def getCol (t : Table) (c : String) : List Cell :=
  match t.cols.find? (fun p => p.1 == c) with
  | some p => p.2
  | none => []

/-- Column assignment `df[c] = v`: replace the column in place when it
exists, append it at the end otherwise. -/
def setCol (t : Table) (c : String) (v : List Cell) : Table :=
  if t.hasCol c then ⟨t.cols.map (fun p => if p.1 == c then (c, v) else p)⟩
  else ⟨t.cols ++ [(c, v)]⟩

/-- Column removal `df.drop(c, axis=1, errors='ignore')`. -/
def dropCol (t : Table) (c : String) : Table :=
  ⟨t.cols.filter (fun p => p.1 != c)⟩

/-- The number of rows (length of the first column; columns of a well-formed
frame all have this length). -/
def nrows (t : Table) : ℕ :=
  match t.cols with
  | [] => 0
  | p :: _ => p.2.length

end Table

/-- Exceptions the modelled code can raise: pandas `KeyError` on an absent
column, `IndexError` from `mode()[0]` on an empty mode, and `ValueError`
from the `pd.DataFrame` constructor on a shape mismatch. -/
inductive PipelineError where
  | keyError (c : String)
  | indexError
  | valueError
deriving DecidableEq, Repr

/-- The numeric contents of a cell, if any. -/
def cellNum : Cell → Option ℚ
  | some (.num q) => some q
  | _ => none

/-- Pandas `series.fillna(v)`; filling with `NaN` (`v = none`) changes nothing. -/
def fillna (xs : List Cell) (v : Cell) : List Cell :=
  xs.map (fun c => match c with | none => v | some x => some x)

/-- Insert into an ascending sorted list. -/
def sortedInsert (a : ℚ) : List ℚ → List ℚ
  | [] => [a]
  | b :: bs => if a ≤ b then a :: b :: bs else b :: sortedInsert a bs

/-- Ascending sort, as established by numpy before median/quantile lookup. -/
def sortAsc : List ℚ → List ℚ
  | [] => []
  | a :: as => sortedInsert a (sortAsc as)

/-- Pandas `series.median()`: the median of the non-missing numeric entries, `NaN`
when there are none, the mean of the two middle entries for even counts. -/
def seriesMedian (xs : List Cell) : Cell :=
  let vs := sortAsc (xs.filterMap cellNum)
  let n := vs.length
  if n = 0 then none
  else if n % 2 = 1 then some (.num (vs.getD (n / 2) 0))
  else some (.num ((vs.getD (n / 2 - 1) 0 + vs.getD (n / 2) 0) / 2))

/-- The order in which `series.mode()` sorts its candidate values.  The
pipeline only takes modes of homogeneous columns; the cross-kind cases are
never exercised by it. -/
def valLE : Val → Val → Bool
  | .num a, .num b => a ≤ b
  | .str a, .str b => a ≤ b
  | .num _, .str _ => true
  | .str _, .num _ => false

/-- The least element of a list under `le` (`none` for `[]`). -/
def listMinBy (le : Val → Val → Bool) : List Val → Option Val
  | [] => none
  | a :: as => some (as.foldl (fun acc v => if le v acc then v else acc) a)

/-- Pandas `series.mode()[0]`: the least (per `valLE`) among the non-missing values
of maximal multiplicity; `none` when every value is missing, in which case
the subscript raises `IndexError`. -/
def seriesModeFirst (xs : List Cell) : Option Val :=
  let vs := xs.filterMap id
  let maxCount := (vs.map (fun v => vs.count v)).foldr max 0
  listMinBy valLE (vs.filter (fun v => vs.count v == maxCount))

/-- Dictionary encoding `.map({'male': 0, 'female': 1})`: values outside the dictionary
(missing ones included) become `NaN`. -/
def mapSex : Cell → Cell
  | some (.str "male") => some (.num 0)
  | some (.str "female") => some (.num 1)
  | _ => none

/-- Dictionary encoding `.map({'S': 0, 'C': 1, 'Q': 2})`. -/
def mapEmbarked : Cell → Cell
  | some (.str "S") => some (.num 0)
  | some (.str "C") => some (.num 1)
  | some (.str "Q") => some (.num 2)
  | _ => none

/-- Missing-propagating addition of two cells (pandas series `+`).  The
pipeline only adds numeric columns; a string operand never reaches it and
is sent to missing here. -/
def cellAdd : Cell → Cell → Cell
  | some (.num a), some (.num b) => some (.num (a + b))
  | _, _ => none

/-- Step `create_family_size`: `df['FamilySize'] = df['SibSp'] + df['Parch'] + 1`.
Subscripting an absent column raises `KeyError`; the function has no guard. -/
def create_family_size (t : Table) : Except PipelineError Table :=
  if ¬ t.hasCol "SibSp" then .error (.keyError "SibSp")
  else if ¬ t.hasCol "Parch" then .error (.keyError "Parch")
  else .ok (t.setCol "FamilySize"
    ((List.zipWith cellAdd (t.getCol "SibSp") (t.getCol "Parch")).map
      (fun c => cellAdd c (some (.num 1)))))

/-- Step `create_is_alone`: derives `FamilySize` first when it is absent, then
`df['IsAlone'] = (df['FamilySize'] == 1).astype(int)` (`NaN` compares
unequal, giving 0). -/
def create_is_alone (t : Table) : Except PipelineError Table :=
  match (if t.hasCol "FamilySize" then .ok t else create_family_size t :
      Except PipelineError Table) with
  | .error e => .error e
  | .ok t2 =>
    .ok (t2.setCol "IsAlone"
      ((t2.getCol "FamilySize").map
        (fun c => some (.num (if c = some (.num 1) then 1 else 0)))))

/-- First match of the pattern `' ([A-Za-z]+)\.'`: a space, then a
nonempty run of letters immediately followed by a period; the captured
letter run is returned.  On no match the extraction yields `NaN`. -/
def extractTitle : List Char → Option String
  | [] => none
  | ' ' :: rest =>
    (match rest.dropWhile Char.isAlpha with
     | '.' :: _ =>
       if (rest.takeWhile Char.isAlpha).isEmpty then extractTitle rest
       else some ⟨rest.takeWhile Char.isAlpha⟩
     | _ => extractTitle rest)
  | _ :: rest => extractTitle rest

/-- The fixed title dictionary of `create_title_feature`. -/
def title_mapping : List (String × ℚ) :=
  [("Mr", 0), ("Miss", 1), ("Mrs", 2), ("Master", 3), ("Dr", 4),
   ("Rev", 4), ("Col", 4), ("Major", 4), ("Mlle", 1), ("Countess", 2),
   ("Ms", 1), ("Lady", 2), ("Jonkheer", 4), ("Don", 4), ("Dona", 2),
   ("Mme", 2), ("Capt", 4), ("Sir", 4)]

/-- The title code of one name cell: regex extraction, dictionary lookup,
then `fillna(0)`.  Non-string cells (missing names included) extract
nothing and end up as 0. -/
def titleCode (c : Cell) : ℚ :=
  match c with
  | some (.str s) =>
    match extractTitle s.data with
    | some ti =>
      match title_mapping.find? (fun p => p.1 == ti) with
      | some p => p.2
      | none => 0
    | none => 0
  | _ => 0

/-- Step `create_title_feature`: returns the frame unchanged when `Name` is
absent. -/
def create_title_feature (t : Table) : Table :=
  if ¬ t.hasCol "Name" then t
  else t.setCol "Title" ((t.getCol "Name").map (fun c => some (.num (titleCode c))))

/-- The `pd.cut` interval search with right-closed bins: the index of the first
interval `(lo, hi]` containing `x`, if any. -/
def cutSearch (edges : List ℚ) (x : ℚ) : Option ℕ :=
  match edges with
  | lo :: hi :: rest =>
    if lo < x ∧ x ≤ hi then some 0 else (cutSearch (hi :: rest) x).map (· + 1)
  | _ => none

/-- Binning `pd.cut(cell, bins=[0,12,20,40,60,100], labels=[0,1,2,3,4])` on one
cell; values in no bin (and non-numeric cells) become `NaN`. -/
def ageBinOf (c : Cell) : Cell :=
  match c with
  | some (.num q) =>
    (cutSearch [0, 12, 20, 40, 60, 100] q).bind
      (fun i => (([0, 1, 2, 3, 4] : List ℚ).get? i).map (fun l => Val.num l))
  | _ => none

/-- Step `create_age_bins`: returns the frame unchanged when `Age` is absent. -/
def create_age_bins (t : Table) : Table :=
  if ¬ t.hasCol "Age" then t
  else t.setCol "AgeBin" ((t.getCol "Age").map ageBinOf)

/-- Floor of a rational (used by the quantile interpolation). -/
def qfloor (q : ℚ) : ℤ := q.num.ediv q.den

/-- A quantile of an ascending sorted list by numpy's linear
interpolation: position `q * (n - 1)`, interpolating between the two
neighbouring entries. -/
def quantileSorted (vs : List ℚ) (q : ℚ) : ℚ :=
  let pos := q * ((vs.length : ℚ) - 1)
  let lo := (qfloor pos).toNat
  let a := vs.getD lo 0
  let b := vs.getD (lo + 1) a
  a + (pos - (lo : ℚ)) * (b - a)

/-- The bin edges `pd.qcut(_, 4)` computes: quantiles 0, 1/4, 1/2, 3/4, 1
of the non-missing values. -/
def quartileEdges (vs : List ℚ) : List ℚ :=
  ([0, 1/4, 1/2, 3/4, 1] : List ℚ).map (quantileSorted vs)

/-- Collapse consecutive duplicate edges (`duplicates='drop'`; the edge
list is nondecreasing, so this is `np.unique`). -/
def dedupEdges : List ℚ → List ℚ
  | [] => []
  | [a] => [a]
  | a :: b :: rest =>
    if a = b then dedupEdges (b :: rest) else a :: dedupEdges (b :: rest)

/-- One `qcut` code, with `include_lowest`: the lowest edge itself falls
into bin 0; with fewer than two edges every value is masked to `NaN`. -/
def qcutCode (edges : List ℚ) (x : ℚ) : Option ℕ :=
  match edges with
  | e0 :: _ :: _ => if x = e0 then some 0 else cutSearch edges x
  | _ => none

/-- Quartile binning `pd.qcut(series, 4, labels=False, duplicates='drop')`. -/
def qcutQuartiles (xs : List Cell) : List Cell :=
  let edges := dedupEdges (quartileEdges (sortAsc (xs.filterMap cellNum)))
  xs.map (fun c =>
    match c with
    | some (.num q) => (qcutCode edges q).map (fun i => Val.num (i : ℚ))
    | _ => none)

/-- Step `create_fare_bins`: returns the frame unchanged when `Fare` is
absent. -/
def create_fare_bins (t : Table) : Table :=
  if ¬ t.hasCol "Fare" then t
  else t.setCol "FareBin" (qcutQuartiles (t.getCol "Fare"))

/-- Batch `engineer_all_features`: the five derivation steps in their fixed
order. -/
def engineer_all_features (t : Table) : Except PipelineError Table :=
  match create_family_size t with
  | .error e => .error e
  | .ok t1 =>
    match create_is_alone t1 with
    | .error e => .error e
    | .ok t2 => .ok (create_age_bins (create_fare_bins (create_title_feature t2)))

/-- The encoded frame `df_impute` of `impute_missing_values` just before
the `Name` column is split off: the high-missingness column `Cabin` and the
identifier columns `Ticket`, `PassengerId` dropped, `Sex` and `Embarked`
numerically encoded.  Encoding an absent `Sex` or `Embarked` column raises
`KeyError`. -/
def df_impute_frame (t : Table) : Except PipelineError Table :=
  let d := ((t.dropCol "Cabin").dropCol "Ticket").dropCol "PassengerId"
  if ¬ d.hasCol "Sex" then .error (.keyError "Sex")
  else
    let d := d.setCol "Sex" ((d.getCol "Sex").map mapSex)
    if ¬ d.hasCol "Embarked" then .error (.keyError "Embarked")
    else .ok (d.setCol "Embarked" ((d.getCol "Embarked").map mapEmbarked))

/-- Selection `df.columns[df.isnull().any()].tolist()`: names of the columns holding
at least one missing value. -/
def missingColNames (t : Table) : List String :=
  (t.cols.filter (fun p => p.2.any (fun c => c.isNone))).map (fun p => p.1)

/-- Constructor `pd.DataFrame(matrix, columns=cs)`: column `j` collects entry `j` of
every matrix row. -/
def buildDF (cs : List String) (m : List (List ℚ)) : Table :=
  ⟨cs.enum.map (fun p => (p.2, m.map (fun r => some (Val.num (r.getD p.1 0)))))⟩

/-- Function `impute_missing_values`.  The scikit-learn `IterativeImputer` is an
external collaborator; its `fit_transform` enters as the parameter
`fitTransform` (input cells may be missing, the output matrix is a complete
float matrix).  A shape mismatch that would make the `pd.DataFrame`
constructor throw is modelled as `ValueError`. -/
def impute_missing_values (fitTransform : List (List (Option ℚ)) → List (List ℚ))
    (t : Table) (include_target : Bool := true) : Except PipelineError Table :=
  match df_impute_frame t with
  | .error e => .error e
  | .ok d =>
  let nameCol : Option (List Cell) :=
    if d.hasCol "Name" then some (d.getCol "Name") else none
  let dfi := d.dropCol "Name"
  if missingColNames dfi ≠ [] then
    let imputeCols :=
      if include_target && dfi.hasCol "Survived" then dfi.cols.map (fun p => p.1)
      else (dfi.cols.map (fun p => p.1)).filter (fun c => c != "Survived")
    let rows := (List.range dfi.nrows).map
      (fun i => imputeCols.map (fun c => cellNum ((dfi.getCol c).getD i none)))
    let m := fitTransform rows
    if m.length != dfi.nrows || m.any (fun r => r.length != imputeCols.length) then
      .error .valueError
    else
      let dfImputed := buildDF imputeCols m
      let dfImputed :=
        if !include_target && dfi.hasCol "Survived" then
          dfImputed.setCol "Survived" (dfi.getCol "Survived")
        else dfImputed
      match nameCol with
      | some nc => .ok (dfImputed.setCol "Name" nc)
      | none => .ok dfImputed
  else
    match nameCol with
    | some nc => .ok (dfi.setCol "Name" nc)
    | none => .ok dfi

/-- The simple (legacy) branch of `preprocess_data`: median `fillna` for
`Age` and `Fare`, mode `fillna` for `Embarked`, drop `Cabin`, numerically
encode `Sex` and `Embarked`.  `mode()[0]` on an all-missing `Embarked`
raises `IndexError`; subscripting an absent column raises `KeyError`. -/
def preprocess_data_simple (t : Table) : Except PipelineError Table :=
  if ¬ t.hasCol "Age" then .error (.keyError "Age")
  else
    let t := t.setCol "Age" (fillna (t.getCol "Age") (seriesMedian (t.getCol "Age")))
    if ¬ t.hasCol "Embarked" then .error (.keyError "Embarked")
    else
      match seriesModeFirst (t.getCol "Embarked") with
      | none => .error .indexError
      | some mo =>
        let t := t.setCol "Embarked" (fillna (t.getCol "Embarked") (some mo))
        if ¬ t.hasCol "Fare" then .error (.keyError "Fare")
        else
          let t := t.setCol "Fare"
            (fillna (t.getCol "Fare") (seriesMedian (t.getCol "Fare")))
          let t := t.dropCol "Cabin"
          if ¬ t.hasCol "Sex" then .error (.keyError "Sex")
          else
            let t := t.setCol "Sex" ((t.getCol "Sex").map mapSex)
            .ok (t.setCol "Embarked" ((t.getCol "Embarked").map mapEmbarked))

/-- Function `preprocess_data`: MICE branch (with `include_target=True`) or the
simple branch. -/
def preprocess_data (fitTransform : List (List (Option ℚ)) → List (List ℚ))
    (t : Table) (use_mice_imputation : Bool := true) : Except PipelineError Table :=
  if use_mice_imputation then impute_missing_values fitTransform t true
  else preprocess_data_simple t

/-- The fixed feature list of `split_features_target`. -/
def feature_columns : List String :=
  ["Pclass", "Sex", "Age", "SibSp", "Parch", "Fare", "Embarked"]

/-- Function `split_features_target`: select the feature matrix and the target
column; pandas raises `KeyError` when a requested column is absent. -/
def split_features_target (t : Table) (target_column : String := "Survived") :
    Except PipelineError (Table × List Cell) :=
  match feature_columns.find? (fun c => ! t.hasCol c) with
  | some c => .error (.keyError c)
  | none =>
    if ¬ t.hasCol target_column then .error (.keyError target_column)
    else .ok (⟨feature_columns.map (fun c => (c, t.getCol c))⟩, t.getCol target_column)

/-- A stand-in for `IterativeImputer().fit_transform` used on concrete
inputs: fill every missing entry with 0.  It preserves the matrix shape,
as the real imputer does. -/
def ftZero (rows : List (List (Option ℚ))) : List (List ℚ) :=
  rows.map (fun r => r.map (fun c => c.getD 0))

/-- A one-row labelled record with the full column set and no missing
values. -/
def titanic1 : Table :=
  ⟨[("PassengerId", [some (.num 1)]),
    ("Survived", [some (.num 0)]),
    ("Pclass", [some (.num 3)]),
    ("Name", [some (.str "Braund, Mr. Owen Harris")]),
    ("Sex", [some (.str "male")]),
    ("Age", [some (.num 22)]),
    ("SibSp", [some (.num 1)]),
    ("Parch", [some (.num 0)]),
    ("Ticket", [some (.str "A/5 21171")]),
    ("Fare", [some (.num (29/4))]),
    ("Cabin", [none]),
    ("Embarked", [some (.str "S")])]⟩

/-- Like `titanic1` but with the out-of-range age 150 (present, not
missing). -/
def titanicAge150 : Table :=
  ⟨[("Survived", [some (.num 0)]),
    ("Pclass", [some (.num 3)]),
    ("Name", [some (.str "Braund, Mr. Owen Harris")]),
    ("Sex", [some (.str "male")]),
    ("Age", [some (.num 150)]),
    ("SibSp", [some (.num 1)]),
    ("Parch", [some (.num 0)]),
    ("Fare", [some (.num (29/4))]),
    ("Embarked", [some (.str "S")])]⟩

/-- A fully observed labelled record (no missing values anywhere). -/
def titanicComplete : Table :=
  ⟨[("Survived", [some (.num 1)]),
    ("Pclass", [some (.num 1)]),
    ("Name", [some (.str "Cumings, Mrs. John Bradley")]),
    ("Sex", [some (.str "female")]),
    ("Age", [some (.num 38)]),
    ("SibSp", [some (.num 1)]),
    ("Parch", [some (.num 0)]),
    ("Fare", [some (.num (712833/10000))]),
    ("Embarked", [some (.str "C")])]⟩

/-- A frame without `SibSp` (and without `Parch`). -/
def noSibSpTable : Table := ⟨[("Pclass", [some (.num 1)])]⟩

/-- A complete frame lacking both `Age` and `Fare`. -/
def noAgeFareTable : Table :=
  ⟨[("Survived", [some (.num 1), some (.num 0)]),
    ("Pclass", [some (.num 1), some (.num 3)]),
    ("Sex", [some (.str "female"), some (.str "male")]),
    ("Embarked", [some (.str "C"), some (.str "S")])]⟩

/-- A frame lacking `Fare` but holding every other assembler column. -/
def noFareTable : Table :=
  ⟨[("Survived", [some (.num 1)]),
    ("Pclass", [some (.num 1)]),
    ("Sex", [some (.num 1)]),
    ("Age", [some (.num 38)]),
    ("SibSp", [some (.num 1)]),
    ("Parch", [some (.num 0)]),
    ("Embarked", [some (.num 1)])]⟩

/-- A two-row labelled frame with missing entries in `Age` and `Embarked`
(used to drive the multivariate branch on concrete inputs). -/
def titanicMissing2 : Table :=
  ⟨[("Survived", [some (.num 0), some (.num 1)]),
    ("Pclass", [some (.num 3), some (.num 1)]),
    ("Name", [some (.str "Braund, Mr. Owen Harris"),
              some (.str "Cumings, Mrs. John Bradley")]),
    ("Sex", [some (.str "male"), some (.str "female")]),
    ("Age", [none, some (.num 38)]),
    ("SibSp", [some (.num 1), some (.num 1)]),
    ("Parch", [some (.num 0), some (.num 0)]),
    ("Fare", [some (.num (29/4)), none]),
    ("Embarked", [some (.str "S"), none])]⟩

/-- A one-column frame holding a single age of exactly 20. -/
def age20Table : Table := ⟨[("Age", [some (.num 20)])]⟩

/-- A frame holding `SibSp` but not `Parch`. -/
def onlySibSpTable : Table := ⟨[("SibSp", [some (.num 1)])]⟩

/-- A frame holding `Sex` but not `Embarked`. -/
def onlySexTable : Table := ⟨[("Sex", [some (.str "male")])]⟩

/-- A frame holding `Age`, `Embarked` and `Fare` but no `Sex` column. -/
def noSexTable : Table :=
  ⟨[("Age", [some (.num 30)]),
    ("Embarked", [some (.str "S")]),
    ("Fare", [some (.num 10)])]⟩

/-- The frame `impute_missing_values ftZero titanicMissing2 false`
produces (checked by evaluation in the witness below). -/
def imputedMissing2 : Table :=
  ⟨[("Pclass", [some (.num 3), some (.num 1)]),
    ("Sex", [some (.num 0), some (.num 1)]),
    ("Age", [some (.num 0), some (.num 38)]),
    ("SibSp", [some (.num 1), some (.num 1)]),
    ("Parch", [some (.num 0), some (.num 0)]),
    ("Fare", [some (.num (29/4)), some (.num 0)]),
    ("Embarked", [some (.num 0), some (.num 0)]),
    ("Survived", [some (.num 0), some (.num 1)]),
    ("Name", [some (.str "Braund, Mr. Owen Harris"),
              some (.str "Cumings, Mrs. John Bradley")])]⟩

deriving instance DecidableEq for Except

/-- A column is complete in a frame: present, with no missing entry. -/
def colComplete (t : Table) (c : String) : Prop :=
  t.hasCol c = true ∧ ∀ x ∈ t.getCol c, x ≠ none

instance (t : Table) (c : String) : Decidable (colComplete t c) := by
  unfold colComplete; infer_instance

theorem embedding_sanity :
    extractTitle "Braund, Mr. Owen Harris".data = some "Mr" ∧
    titleCode (some (.str "x, Countess. y")) = 2 ∧
    ageBinOf (some (.num 12)) = some (.num 0) ∧
    ageBinOf (some (.num 0)) = none ∧
    qcutQuartiles [some (.num 1), some (.num 2), some (.num 3), some (.num 4)]
      = [some (.num 0), some (.num 1), some (.num 2), some (.num 3)] ∧
    qcutQuartiles [some (.num 5), some (.num 5)] = [none, none] ∧
    seriesMedian [some (.num 1), none, some (.num 2)] = some (.num (3/2)) ∧
    seriesModeFirst [some (.str "S"), none, some (.str "C"), some (.str "S")]
      = some (.str "S") := by
  with_unfolding_all decide

/-! ## Frame lemmas -/

theorem hasCol_iff (t : Table) (c : String) :
    t.hasCol c = true ↔ ∃ p ∈ t.cols, p.1 = c := by
  simp [Table.hasCol, List.any_eq_true, beq_iff_eq]

theorem find?_map_set (l : List (String × List Cell)) (c : String) (v : List Cell)
    (h : ∃ p ∈ l, p.1 = c) :
    (l.map (fun p => if p.1 == c then (c, v) else p)).find? (fun p => p.1 == c)
      = some (c, v) := by
  induction l with
  | nil => simp at h
  | cons a l ih =>
    by_cases ha : a.1 = c
    · simp [List.find?_cons, ha]
    · have h' : ∃ p ∈ l, p.1 = c := by
        rcases h with ⟨p, hp, hpc⟩
        rcases List.mem_cons.1 hp with hp | hp
        · exact absurd (hp ▸ hpc) ha
        · exact ⟨p, hp, hpc⟩
      simpa [List.find?_cons, ha] using ih h'

theorem getCol_setCol_same (t : Table) (c : String) (v : List Cell) :
    (t.setCol c v).getCol c = v := by
  unfold Table.setCol
  by_cases h : t.hasCol c = true
  · rw [if_pos h]
    unfold Table.getCol
    rw [find?_map_set t.cols c v ((hasCol_iff t c).1 h)]
  · rw [if_neg h]
    unfold Table.getCol
    have hnone : t.cols.find? (fun p => p.1 == c) = none := by
      rw [List.find?_eq_none]
      intro p hp
      simp only [beq_iff_eq]
      intro hpc
      exact h ((hasCol_iff t c).2 ⟨p, hp, hpc⟩)
    rw [List.find?_append, hnone]
    simp

theorem find?_map_set_ne (l : List (String × List Cell)) (c c' : String)
    (v : List Cell) (hne : c' ≠ c) :
    (l.map (fun p => if p.1 == c then (c, v) else p)).find? (fun p => p.1 == c')
      = l.find? (fun p => p.1 == c') := by
  induction l with
  | nil => rfl
  | cons a l ih =>
    rw [List.map_cons]
    by_cases ha : a.1 = c
    · have hf : (if (a.1 == c) = true then (c, v) else a) = (c, v) := by simp [ha]
      have ha' : ¬ (a.1 = c') := fun hc => hne (hc ▸ ha ▸ rfl)
      rw [hf, List.find?_cons_of_neg _ (by simp [Ne.symm hne]),
        List.find?_cons_of_neg _ (by simp [ha']), ih]
    · have hf : (if (a.1 == c) = true then (c, v) else a) = a := by simp [ha]
      rw [hf]
      by_cases ha2 : a.1 = c'
      · rw [List.find?_cons_of_pos _ (by simp [ha2]),
          List.find?_cons_of_pos _ (by simp [ha2])]
      · rw [List.find?_cons_of_neg _ (by simp [ha2]),
          List.find?_cons_of_neg _ (by simp [ha2]), ih]

theorem getCol_setCol_ne (t : Table) (c c' : String) (v : List Cell)
    (hne : c' ≠ c) : (t.setCol c v).getCol c' = t.getCol c' := by
  unfold Table.setCol
  by_cases h : t.hasCol c = true
  · rw [if_pos h]
    unfold Table.getCol
    rw [find?_map_set_ne t.cols c c' v hne]
  · rw [if_neg h]
    unfold Table.getCol
    rw [List.find?_append]
    cases hfind : t.cols.find? (fun p => p.1 == c') with
    | some p => simp
    | none => simp [Ne.symm hne]

theorem hasCol_setCol_same (t : Table) (c : String) (v : List Cell) :
    (t.setCol c v).hasCol c = true := by
  unfold Table.setCol
  by_cases h : t.hasCol c = true
  · rw [if_pos h]
    obtain ⟨p, hp, hpc⟩ := (hasCol_iff t c).1 h
    exact (hasCol_iff _ c).2 ⟨(c, v), List.mem_map.2 ⟨p, hp, by simp [hpc]⟩, rfl⟩
  · rw [if_neg h]
    exact (hasCol_iff _ c).2 ⟨(c, v), by simp, rfl⟩

theorem hasCol_setCol_ne (t : Table) (c c' : String) (v : List Cell)
    (hne : c' ≠ c) : (t.setCol c v).hasCol c' = t.hasCol c' := by
  unfold Table.setCol
  by_cases h : t.hasCol c = true
  · rw [if_pos h]
    unfold Table.hasCol
    rw [List.any_map]
    have hcomp : ((fun p => p.1 == c') ∘ fun p : String × List Cell =>
        if p.1 == c then (c, v) else p) = (fun p => p.1 == c') := by
      funext p
      by_cases hp : p.1 = c <;> simp [Function.comp, hp, Ne.symm hne]
    rw [hcomp]
  · rw [if_neg h]
    unfold Table.hasCol
    rw [List.any_append]
    simp [Ne.symm hne]

theorem find?_filter_ne (l : List (String × List Cell)) (c c' : String)
    (hne : c' ≠ c) :
    (l.filter (fun p => p.1 != c)).find? (fun p => p.1 == c')
      = l.find? (fun p => p.1 == c') := by
  induction l with
  | nil => rfl
  | cons a l ih =>
    by_cases ha : a.1 = c
    · have ha' : ¬ (a.1 = c') := fun hc => hne (hc ▸ ha ▸ rfl)
      rw [List.filter_cons_of_neg (by simp [ha]),
        List.find?_cons_of_neg _ (by simp [ha']), ih]
    · rw [List.filter_cons_of_pos (by simp [ha])]
      by_cases ha2 : a.1 = c'
      · rw [List.find?_cons_of_pos _ (by simp [ha2]),
          List.find?_cons_of_pos _ (by simp [ha2])]
      · rw [List.find?_cons_of_neg _ (by simp [ha2]),
          List.find?_cons_of_neg _ (by simp [ha2]), ih]

theorem getCol_dropCol_ne (t : Table) (c c' : String) (hne : c' ≠ c) :
    (t.dropCol c).getCol c' = t.getCol c' := by
  unfold Table.dropCol Table.getCol
  rw [find?_filter_ne t.cols c c' hne]

theorem any_filter_ne (l : List (String × List Cell)) (c c' : String)
    (hne : c' ≠ c) :
    (l.filter (fun p => p.1 != c)).any (fun p => p.1 == c')
      = l.any (fun p => p.1 == c') := by
  induction l with
  | nil => rfl
  | cons a l ih =>
    by_cases ha : a.1 = c
    · have ha' : (a.1 == c') = false := by simp [ha, Ne.symm hne]
      rw [List.filter_cons_of_neg (by simp [ha]), ih, List.any_cons, ha',
        Bool.false_or]
    · rw [List.filter_cons_of_pos (by simp [ha]), List.any_cons, List.any_cons,
        ih]

theorem hasCol_dropCol_ne (t : Table) (c c' : String) (hne : c' ≠ c) :
    (t.dropCol c).hasCol c' = t.hasCol c' := by
  unfold Table.dropCol Table.hasCol
  exact any_filter_ne t.cols c c' hne

theorem hasCol_dropCol_self (t : Table) (c : String) :
    (t.dropCol c).hasCol c = false := by
  unfold Table.dropCol Table.hasCol
  rw [List.any_eq_false]
  intro p hp
  rcases List.mem_filter.1 hp with ⟨_, hpc⟩
  simpa using hpc

/-! ## Claim C2: age-bin boundaries -/

/-- C2 counterexample: the claim's stated scheme puts age 20 in bucket 2
(`[20,40) = 2`), but the age-binning step puts age 20 in bucket 1 — the
code's bins are left-open and right-closed. -/
theorem c2_counterexample :
    (create_age_bins age20Table).getCol "AgeBin" = [some (.num 1)] ∧
    (create_age_bins age20Table).getCol "AgeBin" ≠ [some (.num 2)] := by
  with_unfolding_all decide

/-- C2 (amended): age 12 falls in bucket 0 and age 12.0001 in bucket 1 as
claimed, but the five buckets are right-closed, not left-closed:
`(0,12] = 0`, `(12,20] = 1`, `(20,40] = 2`, `(40,60] = 3`, `(60,100] = 4`,
and any age outside `(0,100]` (0 itself included) or missing maps to a
missing bin. -/
theorem c2_age_bin_boundaries :
    (∀ q : ℚ, ageBinOf (some (.num q)) =
      if 0 < q ∧ q ≤ 12 then some (.num 0)
      else if 12 < q ∧ q ≤ 20 then some (.num 1)
      else if 20 < q ∧ q ≤ 40 then some (.num 2)
      else if 40 < q ∧ q ≤ 60 then some (.num 3)
      else if 60 < q ∧ q ≤ 100 then some (.num 4)
      else none)
    ∧ ageBinOf (some (.num 12)) = some (.num 0)
    ∧ ageBinOf (some (.num (120001/10000))) = some (.num 1)
    ∧ ageBinOf none = none := by
  refine ⟨fun q => ?_, by with_unfolding_all decide,
    by with_unfolding_all decide, rfl⟩
  show (cutSearch [0, 12, 20, 40, 60, 100] q).bind _ = _
  simp only [cutSearch]
  split_ifs <;> simp_all [Option.bind, Option.map]

/-! ## Claim C5: behaviour on an absent source column -/

/-- C5 counterexample: on a frame without `SibSp`, the family-size step
does not return its input unchanged — it fails with a `KeyError` (the
claim holds only for the title, fare-bin and age-bin steps). -/
theorem c5_counterexample :
    create_family_size noSibSpTable = .error (.keyError "SibSp") ∧
    create_family_size noSibSpTable ≠ .ok noSibSpTable ∧
    create_is_alone noSibSpTable ≠ .ok noSibSpTable := by decide

/-- C5 (amended): the title, fare-bin and age-bin steps return their input
unchanged when their source column is absent; the family-size step instead
fails with a `KeyError` on the missing `SibSp` (or `Parch`) column, and the
is-alone step on a frame without `FamilySize` first derives it, likewise
failing when `SibSp` is absent. -/
theorem c5_absent_column_behaviour :
    (∀ t : Table, t.hasCol "Name" = false → create_title_feature t = t) ∧
    (∀ t : Table, t.hasCol "Fare" = false → create_fare_bins t = t) ∧
    (∀ t : Table, t.hasCol "Age" = false → create_age_bins t = t) ∧
    (∀ t : Table, t.hasCol "SibSp" = false →
      create_family_size t = .error (.keyError "SibSp")) ∧
    (∀ t : Table, t.hasCol "SibSp" = true → t.hasCol "Parch" = false →
      create_family_size t = .error (.keyError "Parch")) ∧
    (∀ t : Table, t.hasCol "FamilySize" = false → t.hasCol "SibSp" = false →
      create_is_alone t = .error (.keyError "SibSp")) := by
  refine ⟨?_, ?_, ?_, ?_, ?_, ?_⟩
  · intro t h; simp [create_title_feature, h]
  · intro t h; simp [create_fare_bins, h]
  · intro t h; simp [create_age_bins, h]
  · intro t h; simp [create_family_size, h]
  · intro t h1 h2; simp [create_family_size, h1, h2]
  · intro t h1 h2; simp [create_is_alone, create_family_size, h1, h2]

/-- Witness for `c5_absent_column_behaviour` at concrete frames. -/
theorem c5_witness :
    create_title_feature noSibSpTable = noSibSpTable ∧
    create_fare_bins noSibSpTable = noSibSpTable ∧
    create_age_bins noSibSpTable = noSibSpTable ∧
    create_family_size age20Table = .error (.keyError "SibSp") ∧
    create_family_size onlySibSpTable = .error (.keyError "Parch") ∧
    create_is_alone age20Table = .error (.keyError "SibSp") :=
  ⟨c5_absent_column_behaviour.1 _ (by decide),
   c5_absent_column_behaviour.2.1 _ (by decide),
   c5_absent_column_behaviour.2.2.1 _ (by decide),
   c5_absent_column_behaviour.2.2.2.1 _ (by decide),
   c5_absent_column_behaviour.2.2.2.2.1 _ (by decide) (by decide),
   c5_absent_column_behaviour.2.2.2.2.2 _ (by decide) (by decide)⟩

/-! ## Counterexamples to C1, C3, C4, C6 -/

/-- C1 counterexample: on a table whose (non-missing) age is 150, simple
imputation followed by the batch feature-engineering step succeeds and
yields a table whose `AgeBin` column contains a missing value. -/
theorem c1_counterexample :
    ((preprocess_data_simple titanicAge150).bind engineer_all_features).map
      (fun t => t.hasCol "AgeBin" && (t.getCol "AgeBin").any (fun c => c.isNone))
      = .ok true := by
  with_unfolding_all decide

/-- C3 counterexample: on a fully observed table neither strategy returns
its input — both drop/encode columns (`Sex` `male` becomes `0`, etc.). -/
theorem c3_counterexample :
    preprocess_data_simple titanicComplete ≠ .ok titanicComplete ∧
    impute_missing_values ftZero titanicComplete true ≠ .ok titanicComplete := by
  with_unfolding_all decide

/-- C4 counterexample: the simple branch is not idempotent — a second
application re-applies the `Sex` encoding to the already numeric codes,
mapping the whole column to missing. -/
theorem c4_counterexample :
    ((preprocess_data_simple titanicComplete).bind preprocess_data_simple
      ≠ preprocess_data_simple titanicComplete) ∧
    ((preprocess_data_simple titanicComplete).bind preprocess_data_simple).map
      (fun t => t.getCol "Sex") = .ok [none] ∧
    (preprocess_data_simple titanicComplete).map (fun t => t.getCol "Sex")
      = .ok [some (.num 1)] := by
  with_unfolding_all decide

/-- C6 counterexample: a complete frame lacking both `Age` and `Fare` does
not make the multivariate imputation fail — it succeeds. -/
theorem c6_counterexample :
    noAgeFareTable.hasCol "Age" = false ∧ noAgeFareTable.hasCol "Fare" = false ∧
    (impute_missing_values ftZero noAgeFareTable true).map (fun _ => true)
      = .ok true := by
  with_unfolding_all decide

/-! ## Claim C7: dataset assembler on an absent column -/

/-- C7: whenever one of the requested feature columns or the target column
is absent, `split_features_target` fails with a key error naming an absent
column (the spec's `MissingColumnError`). -/
theorem c7_assembler_missing_column :
    ∀ (t : Table) (target : String),
      ((∃ c ∈ feature_columns, t.hasCol c = false) ∨ t.hasCol target = false) →
      ∃ c, split_features_target t target = .error (.keyError c) ∧
        t.hasCol c = false := by
  intro t target h
  unfold split_features_target
  cases hfind : feature_columns.find? (fun c => ! t.hasCol c) with
  | some c =>
    refine ⟨c, rfl, ?_⟩
    have := List.find?_some hfind
    simpa using this
  | none =>
    have hall : ∀ c ∈ feature_columns, t.hasCol c = true := by
      intro c hc
      have := List.find?_eq_none.1 hfind c hc
      simpa using this
    rcases h with ⟨c, hc, hcf⟩ | htarget
    · rw [hall c hc] at hcf; cases hcf
    · refine ⟨target, ?_, htarget⟩
      simp [htarget]

/-- Witness for `c7_assembler_missing_column`: a frame missing `Fare`. -/
theorem c7_witness :
    ∃ c, split_features_target noFareTable "Survived" = .error (.keyError c) ∧
      noFareTable.hasCol c = false :=
  c7_assembler_missing_column noFareTable "Survived"
    (Or.inl ⟨"Fare", by decide, by decide⟩)

/-! ## Claim C8: totality of the title derivation -/

theorem titleCode_mem (c : Cell) : titleCode c ∈ ([0, 1, 2, 3, 4] : List ℚ) := by
  rcases c with _ | v
  · simp [titleCode]
  · rcases v with s | q
    · cases hext : extractTitle s.data with
      | none => simp [titleCode, hext]
      | some ti =>
        cases hfind : title_mapping.find? (fun p => p.1 == ti) with
        | none => simp [titleCode, hext, hfind]
        | some p =>
          have hmem := List.mem_of_find?_eq_some hfind
          have hall : ∀ p ∈ title_mapping, p.2 ∈ ([0, 1, 2, 3, 4] : List ℚ) := by
            decide
          simpa [titleCode, hext, hfind] using hall p hmem
    · simp [titleCode]

/-- C8: the title derivation is total — every cell (string name, missing
name, or non-string) gets a code among `{0,1,2,3,4}`; a missing name gets
0; names without a regex match and extracted titles outside the dictionary
default to 0; and on a frame with a `Name` column every derived `Title`
entry is a defined number among `{0,1,2,3,4}`. -/
theorem c8_title_total :
    (∀ c : Cell, titleCode c ∈ ([0, 1, 2, 3, 4] : List ℚ)) ∧
    titleCode none = 0 ∧
    (∀ s : String, extractTitle s.data = none → titleCode (some (.str s)) = 0) ∧
    (∀ (s ti : String), extractTitle s.data = some ti →
      title_mapping.find? (fun p => p.1 == ti) = none →
      titleCode (some (.str s)) = 0) ∧
    (∀ t : Table, t.hasCol "Name" = true →
      ∀ x ∈ (create_title_feature t).getCol "Title",
        ∃ q, x = some (.num q) ∧ q ∈ ([0, 1, 2, 3, 4] : List ℚ)) := by
  refine ⟨titleCode_mem, rfl, ?_, ?_, ?_⟩
  · intro s hs; simp [titleCode, hs]
  · intro s ti hs hfind; simp [titleCode, hs, hfind]
  · intro t ht x hx
    unfold create_title_feature at hx
    rw [if_neg (by simp [ht]), getCol_setCol_same] at hx
    obtain ⟨c, _, rfl⟩ := List.mem_map.1 hx
    exact ⟨titleCode c, rfl, titleCode_mem c⟩

/-- Witness for `c8_title_total` at concrete inputs. -/
theorem c8_witness :
    titleCode (some (.str "no title here")) = 0 ∧
    titleCode (some (.str "a Xq. b")) = 0 ∧
    (∀ x ∈ (create_title_feature titanic1).getCol "Title",
      ∃ q, x = some (.num q) ∧ q ∈ ([0, 1, 2, 3, 4] : List ℚ)) :=
  ⟨c8_title_total.2.2.1 "no title here" (by decide),
   c8_title_total.2.2.2.1 "a Xq. b" "Xq" (by decide) (by decide),
   c8_title_total.2.2.2.2 titanic1 (by decide)⟩

/-! ## Claim C9: the family-size formula -/

/-- C9: on any frame holding `SibSp` and `Parch`, the derived `FamilySize`
entry of every row with numeric counts `a` and `b` equals `a + b + 1`. -/
theorem c9_family_size :
    ∀ (t t' : Table), t.hasCol "SibSp" = true → t.hasCol "Parch" = true →
      create_family_size t = .ok t' →
      ∀ (i : ℕ) (a b : ℚ),
        (t.getCol "SibSp")[i]? = some (some (.num a)) →
        (t.getCol "Parch")[i]? = some (some (.num b)) →
        (t'.getCol "FamilySize")[i]? = some (some (.num (a + b + 1))) := by
  intro t t' h1 h2 hok i a b ha hb
  unfold create_family_size at hok
  rw [if_neg (by simp [h1]), if_neg (by simp [h2])] at hok
  cases hok
  rw [getCol_setCol_same]
  simp [List.getElem?_map, List.getElem?_zipWith', ha, hb, cellAdd]

/-- Witness for `c9_family_size`: the one-row frame `titanic1` with
`SibSp = 1`, `Parch = 0` gets `FamilySize = 2`. -/
theorem c9_witness :
    ((titanic1.setCol "FamilySize" [some (Val.num 2)]).getCol "FamilySize")[0]?
      = some (some (.num (1 + 0 + 1))) :=
  c9_family_size titanic1 (titanic1.setCol "FamilySize" [some (Val.num 2)])
    (by decide) (by decide) (by with_unfolding_all decide) 0 1 0
    (by with_unfolding_all decide) (by with_unfolding_all decide)

/-! ## Claim C10: the label column under `include_target=False` -/

theorem df_impute_frame_ok (t d : Table) (h : df_impute_frame t = .ok d)
    (c : String) (hc1 : c ≠ "Cabin") (hc2 : c ≠ "Ticket")
    (hc3 : c ≠ "PassengerId") (hc4 : c ≠ "Sex") (hc5 : c ≠ "Embarked") :
    d.getCol c = t.getCol c ∧ d.hasCol c = t.hasCol c := by
  simp only [df_impute_frame] at h
  split at h
  · cases h
  · split at h
    · cases h
    · cases h
      constructor
      · rw [getCol_setCol_ne _ _ _ _ hc5, getCol_setCol_ne _ _ _ _ hc4,
          getCol_dropCol_ne _ _ _ hc3, getCol_dropCol_ne _ _ _ hc2,
          getCol_dropCol_ne _ _ _ hc1]
      · rw [hasCol_setCol_ne _ _ _ _ hc5, hasCol_setCol_ne _ _ _ _ hc4,
          hasCol_dropCol_ne _ _ _ hc3, hasCol_dropCol_ne _ _ _ hc2,
          hasCol_dropCol_ne _ _ _ hc1]

/-- C10: multivariate imputation invoked with `include_target = false` on a
frame holding the label column returns (when it returns a frame at all) a
frame whose `Survived` column is present and entry-for-entry equal to the
input's — the label is kept out of the regression matrix and copied back. -/
theorem c10_label_preserved :
    ∀ (ft : List (List (Option ℚ)) → List (List ℚ)) (t tm : Table),
      t.hasCol "Survived" = true →
      impute_missing_values ft t false = .ok tm →
      tm.hasCol "Survived" = true ∧ tm.getCol "Survived" = t.getCol "Survived" := by
  intro ft t tm hs hok
  unfold impute_missing_values at hok
  cases hfr : df_impute_frame t with
  | error e => rw [hfr] at hok; cases hok
  | ok d =>
    rw [hfr] at hok
    obtain ⟨hdg, hdh⟩ := df_impute_frame_ok t d hfr "Survived"
      (by decide) (by decide) (by decide) (by decide) (by decide)
    have hdig : (d.dropCol "Name").getCol "Survived" = t.getCol "Survived" := by
      rw [getCol_dropCol_ne _ _ _ (by decide), hdg]
    have hdih : (d.dropCol "Name").hasCol "Survived" = true := by
      rw [hasCol_dropCol_ne _ _ _ (by decide), hdh, hs]
    simp only [Bool.not_false, Bool.true_and, Bool.false_and,
      Bool.false_eq_true, if_false] at hok
    rw [if_pos hdih] at hok
    by_cases hname : d.hasCol "Name" = true
    · rw [if_pos hname] at hok
      simp only [] at hok
      by_cases hm : missingColNames (d.dropCol "Name") ≠ []
      · rw [if_pos hm] at hok
        split at hok
        · cases hok
        · cases hok
          constructor
          · rw [hasCol_setCol_ne _ _ _ _ (by decide), hasCol_setCol_same]
          · rw [getCol_setCol_ne _ _ _ _ (by decide), getCol_setCol_same, hdig]
      · rw [if_neg hm] at hok
        cases hok
        constructor
        · rw [hasCol_setCol_ne _ _ _ _ (by decide), hdih]
        · rw [getCol_setCol_ne _ _ _ _ (by decide), hdig]
    · rw [if_neg hname] at hok
      simp only [] at hok
      by_cases hm : missingColNames (d.dropCol "Name") ≠ []
      · rw [if_pos hm] at hok
        split at hok
        · cases hok
        · cases hok
          exact ⟨hasCol_setCol_same _ _ _, by rw [getCol_setCol_same, hdig]⟩
      · rw [if_neg hm] at hok
        cases hok
        exact ⟨hdih, hdig⟩

/-- Witness for `c10_label_preserved` on a concrete two-row frame with
missing entries, with the shape-preserving zero-filling `ftZero` standing
in for the regression imputer. -/
theorem c10_witness :
    imputedMissing2.hasCol "Survived" = true ∧
    imputedMissing2.getCol "Survived" = titanicMissing2.getCol "Survived" :=
  c10_label_preserved ftZero titanicMissing2 imputedMissing2 (by decide)
    (by with_unfolding_all decide)

/-! ## Claim C4: idempotence of the simple fills -/

theorem fillna_none (xs : List Cell) : fillna xs none = xs := by
  unfold fillna
  induction xs with
  | nil => rfl
  | cons a l ih => cases a <;> simp [ih]

theorem fillna_complete (xs : List Cell) (v : Cell)
    (h : ∀ x ∈ xs, x ≠ none) : fillna xs v = xs := by
  unfold fillna
  induction xs with
  | nil => rfl
  | cons a l ih =>
    cases a with
    | none => exact absurd rfl (h none (by simp))
    | some x => simp [ih (fun y hy => h y (by simp [hy]))]

theorem fillna_some_complete (xs : List Cell) (v : Val) :
    ∀ x ∈ fillna xs (some v), x ≠ none := by
  intro x hx
  unfold fillna at hx
  obtain ⟨c, _, rfl⟩ := List.mem_map.1 hx
  cases c <;> simp

/-- C4 (amended): the value-filling steps of the simple branch are
idempotent — a median refill after a median fill changes nothing (also
when the column has no numeric entry and the median is `NaN`), and any
refill after a fill with an actual value changes nothing.  The full simple
branch, by contrast, is not idempotent (see the counterexample): its
second run re-applies the `Sex`/`Embarked` encodings to numeric codes. -/
theorem c4_fill_idempotent :
    (∀ xs : List Cell,
      fillna (fillna xs (seriesMedian xs))
        (seriesMedian (fillna xs (seriesMedian xs)))
        = fillna xs (seriesMedian xs)) ∧
    (∀ (xs : List Cell) (v : Val) (w : Cell),
      fillna (fillna xs (some v)) w = fillna xs (some v)) := by
  constructor
  · intro xs
    cases hmed : seriesMedian xs with
    | none => simp [hmed, fillna_none]
    | some m =>
      exact fillna_complete _ _ (fillna_some_complete xs m)
  · intro xs v w
    exact fillna_complete _ _ (fillna_some_complete xs v)

/-! ## Helpers: mode existence, column membership, empty missing list -/

theorem getCol_eq_nil_of_not_hasCol (t : Table) (c : String)
    (h : t.hasCol c = false) : t.getCol c = [] := by
  unfold Table.getCol
  cases hfind : t.cols.find? (fun p => p.1 == c) with
  | none => rfl
  | some p =>
    have hp := List.find?_some hfind
    have hmem := List.mem_of_find?_eq_some hfind
    have htrue : t.hasCol c = true :=
      (hasCol_iff t c).2 ⟨p, hmem, by simpa using hp⟩
    rw [h] at htrue
    cases htrue

theorem mem_getCol_mem_cols (t : Table) (c : String) (x : Cell)
    (hx : x ∈ t.getCol c) : ∃ p ∈ t.cols, x ∈ p.2 := by
  unfold Table.getCol at hx
  cases hfind : t.cols.find? (fun p => p.1 == c) with
  | none => rw [hfind] at hx; cases hx
  | some p =>
    rw [hfind] at hx
    exact ⟨p, List.mem_of_find?_eq_some hfind, hx⟩

theorem mem_setCol_snd (t : Table) (c : String) (v : List Cell)
    (p : String × List Cell) (hp : p ∈ (t.setCol c v).cols) :
    p.2 = v ∨ p ∈ t.cols := by
  unfold Table.setCol at hp
  by_cases h : t.hasCol c = true
  · rw [if_pos h] at hp
    obtain ⟨q, hq, hf⟩ := List.mem_map.1 hp
    by_cases hqc : q.1 = c
    · left; rw [← hf]; simp [hqc]
    · right; rw [← hf]; simpa [hqc] using hq
  · rw [if_neg h] at hp
    rcases List.mem_append.1 hp with hp | hp
    · right; exact hp
    · left; simp at hp; simp [hp]

theorem mem_dropCol (t : Table) (c : String) (p : String × List Cell)
    (hp : p ∈ (t.dropCol c).cols) : p ∈ t.cols :=
  List.mem_filter.1 hp |>.1

theorem listMinBy_ne_nil (le : Val → Val → Bool) (l : List Val) (h : l ≠ []) :
    ∃ v, listMinBy le l = some v := by
  cases l with
  | nil => exact absurd rfl h
  | cons a as => exact ⟨_, rfl⟩

theorem foldr_max_attained (l : List ℕ) (h : l ≠ []) :
    ∃ x ∈ l, l.foldr max 0 = x := by
  induction l with
  | nil => exact absurd rfl h
  | cons a l ih =>
    by_cases hl : l = []
    · subst hl; exact ⟨a, by simp, by simp⟩
    · obtain ⟨x, hx, hfold⟩ := ih hl
      simp only [List.foldr_cons]
      rcases le_total (l.foldr max 0) a with hle | hle
      · exact ⟨a, by simp, by omega⟩
      · exact ⟨x, by simp [hx], by omega⟩

theorem seriesModeFirst_isSome (xs : List Cell) (x : Val) (hx : some x ∈ xs) :
    ∃ v, seriesModeFirst xs = some v := by
  simp only [seriesModeFirst]
  have hvs : x ∈ xs.filterMap id := List.mem_filterMap.2 ⟨some x, hx, rfl⟩
  have hne : xs.filterMap id ≠ [] := List.ne_nil_of_mem hvs
  have hcne : (xs.filterMap id).map
      (fun v => (xs.filterMap id).count v) ≠ [] := by
    simpa using hne
  obtain ⟨n, hn, hfold⟩ := foldr_max_attained _ hcne
  obtain ⟨v0, hv0, hv0n⟩ := List.mem_map.1 hn
  refine listMinBy_ne_nil _ _ (List.ne_nil_of_mem (List.mem_filter.2 ⟨hv0, ?_⟩))
  simp [hv0n, hfold]

theorem missingColNames_eq_nil (t : Table)
    (h : ∀ p ∈ t.cols, ∀ x ∈ p.2, x ≠ none) : missingColNames t = [] := by
  unfold missingColNames
  rw [List.filter_eq_nil_iff.2, List.map_nil]
  intro p hp
  rw [Bool.not_eq_true, List.any_eq_false]
  intro x hx
  have hxn := h p hp x hx
  cases x with
  | none => exact absurd rfl hxn
  | some v => simp

/-! ## The multivariate branch on a frame with no missing values -/

theorem impute_complete_frame (t : Table)
    (hnm : ∀ p ∈ t.cols, ∀ x ∈ p.2, x ≠ none)
    (hS : t.hasCol "Sex" = true) (hE : t.hasCol "Embarked" = true)
    (hsx : ∀ x ∈ t.getCol "Sex",
      x = some (.str "male") ∨ x = some (.str "female"))
    (hem : ∀ x ∈ t.getCol "Embarked",
      x = some (.str "S") ∨ x = some (.str "C") ∨ x = some (.str "Q"))
    (it : Bool) (ft : List (List (Option ℚ)) → List (List ℚ)) :
    ∃ tm, impute_missing_values ft t it = .ok tm ∧
      tm.getCol "Sex" = (t.getCol "Sex").map mapSex ∧
      tm.getCol "Embarked" = (t.getCol "Embarked").map mapEmbarked ∧
      tm.hasCol "Sex" = true ∧ tm.hasCol "Embarked" = true ∧
      tm.hasCol "Cabin" = false ∧ tm.hasCol "Ticket" = false ∧
      tm.hasCol "PassengerId" = false ∧
      (∀ c, c ≠ "Sex" → c ≠ "Embarked" → c ≠ "Cabin" → c ≠ "Ticket" →
        c ≠ "PassengerId" → tm.getCol c = t.getCol c ∧ tm.hasCol c = t.hasCol c) := by
  have hgS : (((t.dropCol "Cabin").dropCol "Ticket").dropCol "PassengerId").getCol
      "Sex" = t.getCol "Sex" := by
    rw [getCol_dropCol_ne _ _ _ (by decide), getCol_dropCol_ne _ _ _ (by decide),
      getCol_dropCol_ne _ _ _ (by decide)]
  have hS0 : (((t.dropCol "Cabin").dropCol "Ticket").dropCol "PassengerId").hasCol
      "Sex" = true := by
    rw [hasCol_dropCol_ne _ _ _ (by decide), hasCol_dropCol_ne _ _ _ (by decide),
      hasCol_dropCol_ne _ _ _ (by decide), hS]
  set d0 := ((t.dropCol "Cabin").dropCol "Ticket").dropCol "PassengerId" with hd0
  set d1 := d0.setCol "Sex" ((d0.getCol "Sex").map mapSex) with hd1
  have hgE : d1.getCol "Embarked" = t.getCol "Embarked" := by
    rw [hd1, getCol_setCol_ne _ _ _ _ (by decide), hd0,
      getCol_dropCol_ne _ _ _ (by decide), getCol_dropCol_ne _ _ _ (by decide),
      getCol_dropCol_ne _ _ _ (by decide)]
  have hE1 : d1.hasCol "Embarked" = true := by
    rw [hd1, hasCol_setCol_ne _ _ _ _ (by decide), hd0,
      hasCol_dropCol_ne _ _ _ (by decide), hasCol_dropCol_ne _ _ _ (by decide),
      hasCol_dropCol_ne _ _ _ (by decide), hE]
  set d := d1.setCol "Embarked" ((d1.getCol "Embarked").map mapEmbarked) with hd
  have hframe : df_impute_frame t = .ok d := by
    simp only [df_impute_frame]
    rw [if_neg (by simp [hS0]), if_neg (by simp [hE1])]
  have hdSex : d.getCol "Sex" = (t.getCol "Sex").map mapSex := by
    rw [hd, getCol_setCol_ne _ _ _ _ (by decide), hd1, getCol_setCol_same, hgS]
  have hdEmb : d.getCol "Embarked" = (t.getCol "Embarked").map mapEmbarked := by
    rw [hd, getCol_setCol_same, hgE]
  have hdCab : d.hasCol "Cabin" = false := by
    rw [hd, hasCol_setCol_ne _ _ _ _ (by decide), hd1,
      hasCol_setCol_ne _ _ _ _ (by decide), hd0,
      hasCol_dropCol_ne _ _ _ (by decide), hasCol_dropCol_ne _ _ _ (by decide),
      hasCol_dropCol_self]
  have hdTic : d.hasCol "Ticket" = false := by
    rw [hd, hasCol_setCol_ne _ _ _ _ (by decide), hd1,
      hasCol_setCol_ne _ _ _ _ (by decide), hd0,
      hasCol_dropCol_ne _ _ _ (by decide), hasCol_dropCol_self]
  have hdPid : d.hasCol "PassengerId" = false := by
    rw [hd, hasCol_setCol_ne _ _ _ _ (by decide), hd1,
      hasCol_setCol_ne _ _ _ _ (by decide), hd0, hasCol_dropCol_self]
  have hdhS : d.hasCol "Sex" = true := by
    rw [hd, hasCol_setCol_ne _ _ _ _ (by decide), hd1, hasCol_setCol_same]
  have hdhE : d.hasCol "Embarked" = true := by
    rw [hd, hasCol_setCol_same]
  have hdother := fun (c : String) h1 h2 h3 h4 h5 =>
    df_impute_frame_ok t d hframe c h3 h4 h5 h1 h2
  have hdcomp : ∀ p ∈ d.cols, ∀ x ∈ p.2, x ≠ none := by
    intro p hp x hx
    rcases mem_setCol_snd d1 "Embarked" _ p hp with h2 | hpd1
    · rw [h2] at hx
      obtain ⟨y, hy, rfl⟩ := List.mem_map.1 hx
      rw [hgE] at hy
      rcases hem y hy with h | h | h <;> simp [h, mapEmbarked]
    · rcases mem_setCol_snd d0 "Sex" _ p hpd1 with h2 | hpd0
      · rw [h2] at hx
        obtain ⟨y, hy, rfl⟩ := List.mem_map.1 hx
        rw [hgS] at hy
        rcases hsx y hy with h | h <;> simp [h, mapSex]
      · exact hnm p
          (mem_dropCol _ _ _ (mem_dropCol _ _ _ (mem_dropCol _ _ _ hpd0))) x hx
  have hdficomp : ∀ p ∈ (d.dropCol "Name").cols, ∀ x ∈ p.2, x ≠ none :=
    fun p hp => hdcomp p (mem_dropCol _ _ _ hp)
  have hmiss : missingColNames (d.dropCol "Name") = [] :=
    missingColNames_eq_nil _ hdficomp
  have hdName : d.hasCol "Name" = t.hasCol "Name" :=
    (hdother "Name" (by decide) (by decide) (by decide) (by decide) (by decide)).2
  have hdgName : d.getCol "Name" = t.getCol "Name" :=
    (hdother "Name" (by decide) (by decide) (by decide) (by decide) (by decide)).1
  simp only [impute_missing_values]
  rw [hframe]
  simp only []
  rw [if_neg (by simp [hmiss])]
  by_cases hname : d.hasCol "Name" = true
  · rw [if_pos hname]
    refine ⟨(d.dropCol "Name").setCol "Name" (d.getCol "Name"), rfl,
      ?_, ?_, ?_, ?_, ?_, ?_, ?_, ?_⟩
    · rw [getCol_setCol_ne _ _ _ _ (by decide),
        getCol_dropCol_ne _ _ _ (by decide), hdSex]
    · rw [getCol_setCol_ne _ _ _ _ (by decide),
        getCol_dropCol_ne _ _ _ (by decide), hdEmb]
    · rw [hasCol_setCol_ne _ _ _ _ (by decide),
        hasCol_dropCol_ne _ _ _ (by decide), hdhS]
    · rw [hasCol_setCol_ne _ _ _ _ (by decide),
        hasCol_dropCol_ne _ _ _ (by decide), hdhE]
    · rw [hasCol_setCol_ne _ _ _ _ (by decide),
        hasCol_dropCol_ne _ _ _ (by decide), hdCab]
    · rw [hasCol_setCol_ne _ _ _ _ (by decide),
        hasCol_dropCol_ne _ _ _ (by decide), hdTic]
    · rw [hasCol_setCol_ne _ _ _ _ (by decide),
        hasCol_dropCol_ne _ _ _ (by decide), hdPid]
    · intro c h1 h2 h3 h4 h5
      by_cases hcn : c = "Name"
      · subst hcn
        constructor
        · rw [getCol_setCol_same, hdgName]
        · rw [hasCol_setCol_same, ← hdName, hname]
      · constructor
        · rw [getCol_setCol_ne _ _ _ _ hcn, getCol_dropCol_ne _ _ _ hcn,
            (hdother c h1 h2 h3 h4 h5).1]
        · rw [hasCol_setCol_ne _ _ _ _ hcn, hasCol_dropCol_ne _ _ _ hcn,
            (hdother c h1 h2 h3 h4 h5).2]
  · rw [if_neg hname]
    have hnamef : t.hasCol "Name" = false := by
      rw [← hdName]; exact Bool.not_eq_true _ ▸ (by simpa using hname)
    refine ⟨d.dropCol "Name", rfl, ?_, ?_, ?_, ?_, ?_, ?_, ?_, ?_⟩
    · rw [getCol_dropCol_ne _ _ _ (by decide), hdSex]
    · rw [getCol_dropCol_ne _ _ _ (by decide), hdEmb]
    · rw [hasCol_dropCol_ne _ _ _ (by decide), hdhS]
    · rw [hasCol_dropCol_ne _ _ _ (by decide), hdhE]
    · rw [hasCol_dropCol_ne _ _ _ (by decide), hdCab]
    · rw [hasCol_dropCol_ne _ _ _ (by decide), hdTic]
    · rw [hasCol_dropCol_ne _ _ _ (by decide), hdPid]
    · intro c h1 h2 h3 h4 h5
      by_cases hcn : c = "Name"
      · subst hcn
        constructor
        · rw [getCol_eq_nil_of_not_hasCol _ _ (hasCol_dropCol_self d "Name"),
            getCol_eq_nil_of_not_hasCol t _ hnamef]
        · rw [hasCol_dropCol_self, hnamef]
      · constructor
        · rw [getCol_dropCol_ne _ _ _ hcn, (hdother c h1 h2 h3 h4 h5).1]
        · rw [hasCol_dropCol_ne _ _ _ hcn, (hdother c h1 h2 h3 h4 h5).2]

/-! ## The simple branch on a frame with no missing values -/

theorem preprocess_simple_complete (t : Table)
    (hnm : ∀ p ∈ t.cols, ∀ x ∈ p.2, x ≠ none)
    (hA : t.hasCol "Age" = true) (hE : t.hasCol "Embarked" = true)
    (hF : t.hasCol "Fare" = true) (hS : t.hasCol "Sex" = true)
    (hEne : t.getCol "Embarked" ≠ [])
    (_hsx : ∀ x ∈ t.getCol "Sex",
      x = some (.str "male") ∨ x = some (.str "female"))
    (_hem : ∀ x ∈ t.getCol "Embarked",
      x = some (.str "S") ∨ x = some (.str "C") ∨ x = some (.str "Q")) :
    ∃ ts, preprocess_data_simple t = .ok ts ∧
      ts.getCol "Sex" = (t.getCol "Sex").map mapSex ∧
      ts.getCol "Embarked" = (t.getCol "Embarked").map mapEmbarked ∧
      ts.hasCol "Sex" = true ∧ ts.hasCol "Embarked" = true ∧
      ts.hasCol "Cabin" = false ∧
      (∀ c, c ≠ "Sex" → c ≠ "Embarked" → c ≠ "Cabin" →
        ts.getCol c = t.getCol c ∧ ts.hasCol c = t.hasCol c) := by
  have hcomp : ∀ (c : String), ∀ x ∈ t.getCol c, x ≠ none := by
    intro c x hx
    obtain ⟨p, hp, hxp⟩ := mem_getCol_mem_cols t c x hx
    exact hnm p hp x hxp
  have hvex : ∃ v : Val, some v ∈ t.getCol "Embarked" := by
    cases hE0 : t.getCol "Embarked" with
    | nil => exact absurd hE0 hEne
    | cons y ys =>
      have hymem : y ∈ t.getCol "Embarked" := by
        rw [hE0]; exact List.mem_cons_self _ _
      cases y with
      | none => exact absurd rfl (hcomp "Embarked" none hymem)
      | some v => exact ⟨v, List.mem_cons_self _ _⟩
  obtain ⟨v, hv⟩ := hvex
  obtain ⟨mo, hmo⟩ := seriesModeFirst_isSome (t.getCol "Embarked") v hv
  simp only [preprocess_data_simple]
  rw [if_neg (by simp [hA])]
  rw [fillna_complete _ _ (hcomp "Age")]
  have hE1 : (t.setCol "Age" (t.getCol "Age")).hasCol "Embarked" = true := by
    rw [hasCol_setCol_ne _ _ _ _ (by decide), hE]
  rw [if_neg (by simp [hE1])]
  have hg1 : (t.setCol "Age" (t.getCol "Age")).getCol "Embarked"
      = t.getCol "Embarked" := getCol_setCol_ne _ _ _ _ (by decide)
  rw [hg1, hmo]
  simp only []
  rw [fillna_complete _ _ (hcomp "Embarked")]
  set T2 := (t.setCol "Age" (t.getCol "Age")).setCol "Embarked"
    (t.getCol "Embarked") with hT2
  have hF2 : T2.hasCol "Fare" = true := by
    rw [hT2, hasCol_setCol_ne _ _ _ _ (by decide),
      hasCol_setCol_ne _ _ _ _ (by decide), hF]
  rw [if_neg (by simp [hF2])]
  have hg2 : T2.getCol "Fare" = t.getCol "Fare" := by
    rw [hT2, getCol_setCol_ne _ _ _ _ (by decide),
      getCol_setCol_ne _ _ _ _ (by decide)]
  rw [hg2, fillna_complete _ _ (hcomp "Fare")]
  set T4 := (T2.setCol "Fare" (t.getCol "Fare")).dropCol "Cabin" with hT4
  have hS3 : T4.hasCol "Sex" = true := by
    rw [hT4, hasCol_dropCol_ne _ _ _ (by decide),
      hasCol_setCol_ne _ _ _ _ (by decide), hT2,
      hasCol_setCol_ne _ _ _ _ (by decide),
      hasCol_setCol_ne _ _ _ _ (by decide), hS]
  rw [if_neg (by simp [hS3])]
  have hg3 : T4.getCol "Sex" = t.getCol "Sex" := by
    rw [hT4, getCol_dropCol_ne _ _ _ (by decide),
      getCol_setCol_ne _ _ _ _ (by decide), hT2,
      getCol_setCol_ne _ _ _ _ (by decide),
      getCol_setCol_ne _ _ _ _ (by decide)]
  rw [hg3]
  set T5 := T4.setCol "Sex" ((t.getCol "Sex").map mapSex) with hT5
  have hg4 : T5.getCol "Embarked" = t.getCol "Embarked" := by
    rw [hT5, getCol_setCol_ne _ _ _ _ (by decide), hT4,
      getCol_dropCol_ne _ _ _ (by decide),
      getCol_setCol_ne _ _ _ _ (by decide), hT2, getCol_setCol_same]
  rw [hg4]
  refine ⟨T5.setCol "Embarked" ((t.getCol "Embarked").map mapEmbarked), rfl,
    ?_, ?_, ?_, ?_, ?_, ?_⟩
  · rw [getCol_setCol_ne _ _ _ _ (by decide), hT5, getCol_setCol_same]
  · rw [getCol_setCol_same]
  · rw [hasCol_setCol_ne _ _ _ _ (by decide), hT5, hasCol_setCol_same]
  · rw [hasCol_setCol_same]
  · rw [hasCol_setCol_ne _ _ _ _ (by decide), hT5,
      hasCol_setCol_ne _ _ _ _ (by decide), hT4, hasCol_dropCol_self]
  · intro c h1 h2 h3
    constructor
    · rw [getCol_setCol_ne _ _ _ _ h2, hT5, getCol_setCol_ne _ _ _ _ h1, hT4,
        getCol_dropCol_ne _ _ _ h3]
      by_cases hcf : c = "Fare"
      · subst hcf; rw [getCol_setCol_same]
      · rw [getCol_setCol_ne _ _ _ _ hcf, hT2, getCol_setCol_ne _ _ _ _ h2]
        by_cases hca : c = "Age"
        · subst hca; rw [getCol_setCol_same]
        · rw [getCol_setCol_ne _ _ _ _ hca]
    · rw [hasCol_setCol_ne _ _ _ _ h2, hT5, hasCol_setCol_ne _ _ _ _ h1, hT4,
        hasCol_dropCol_ne _ _ _ h3]
      by_cases hcf : c = "Fare"
      · subst hcf; rw [hasCol_setCol_same, hF]
      · rw [hasCol_setCol_ne _ _ _ _ hcf, hT2, hasCol_setCol_ne _ _ _ _ h2]
        by_cases hca : c = "Age"
        · subst hca; rw [hasCol_setCol_same, hA]
        · rw [hasCol_setCol_ne _ _ _ _ hca]

/-! ## Claim C3: both strategies on a table with no missing values -/

/-- C3 (amended): on a table with no missing values (and the standard
`Sex`/`Embarked` category values) neither strategy fills or alters any
cell, but neither returns its input unchanged either: the simple branch
drops `Cabin` and numerically re-encodes `Sex` and `Embarked`, leaving
every other column untouched; the multivariate branch never invokes the
regression imputer (its output is the same for every `fit_transform`),
drops `Cabin`/`Ticket`/`PassengerId` and re-encodes `Sex`/`Embarked`,
leaving every other column's values untouched. -/
theorem c3_no_missing_behaviour :
    ∀ t : Table,
      (∀ p ∈ t.cols, ∀ x ∈ p.2, x ≠ none) →
      t.hasCol "Age" = true → t.hasCol "Embarked" = true →
      t.hasCol "Fare" = true → t.hasCol "Sex" = true →
      t.getCol "Embarked" ≠ [] →
      (∀ x ∈ t.getCol "Sex",
        x = some (.str "male") ∨ x = some (.str "female")) →
      (∀ x ∈ t.getCol "Embarked",
        x = some (.str "S") ∨ x = some (.str "C") ∨ x = some (.str "Q")) →
      (∃ ts, preprocess_data_simple t = .ok ts ∧
        ts.getCol "Sex" = (t.getCol "Sex").map mapSex ∧
        ts.getCol "Embarked" = (t.getCol "Embarked").map mapEmbarked ∧
        ts.hasCol "Sex" = true ∧ ts.hasCol "Embarked" = true ∧
        ts.hasCol "Cabin" = false ∧
        (∀ c, c ≠ "Sex" → c ≠ "Embarked" → c ≠ "Cabin" →
          ts.getCol c = t.getCol c ∧ ts.hasCol c = t.hasCol c)) ∧
      (∀ (it : Bool) (ft : List (List (Option ℚ)) → List (List ℚ)),
        ∃ tm, impute_missing_values ft t it = .ok tm ∧
          tm.getCol "Sex" = (t.getCol "Sex").map mapSex ∧
          tm.getCol "Embarked" = (t.getCol "Embarked").map mapEmbarked ∧
          tm.hasCol "Sex" = true ∧ tm.hasCol "Embarked" = true ∧
          tm.hasCol "Cabin" = false ∧ tm.hasCol "Ticket" = false ∧
          tm.hasCol "PassengerId" = false ∧
          (∀ c, c ≠ "Sex" → c ≠ "Embarked" → c ≠ "Cabin" → c ≠ "Ticket" →
            c ≠ "PassengerId" →
            tm.getCol c = t.getCol c ∧ tm.hasCol c = t.hasCol c)) :=
  fun t hnm hA hE hF hS hEne hsx hem =>
    ⟨preprocess_simple_complete t hnm hA hE hF hS hEne hsx hem,
     fun it ft => impute_complete_frame t hnm hS hE hsx hem it ft⟩

/-- Witness for `c3_no_missing_behaviour` at a concrete fully observed
record. -/
theorem c3_witness :
    (∃ ts, preprocess_data_simple titanicComplete = .ok ts ∧
      ts.getCol "Sex" = (titanicComplete.getCol "Sex").map mapSex) ∧
    (∃ tm, impute_missing_values ftZero titanicComplete true = .ok tm ∧
      tm.getCol "Sex" = (titanicComplete.getCol "Sex").map mapSex) := by
  obtain ⟨⟨ts, hts, hts2, _⟩, hmice⟩ :=
    c3_no_missing_behaviour titanicComplete (by decide) (by decide) (by decide)
      (by decide) (by decide) (by decide) (by decide) (by decide)
  obtain ⟨tm, htm, htm2, _⟩ := hmice true ftZero
  exact ⟨⟨ts, hts, hts2⟩, ⟨tm, htm, htm2⟩⟩

/-! ## Claim C6: behaviour of imputation on an absent required column -/

/-- C6 (amended): the failures are pandas `KeyError`s (the code defines no
`ConfigurationError`), and the two strategies require different columns:
the simple branch fails on a missing `Age`, `Embarked` (after `Age`),
`Fare` or `Sex`; the multivariate branch fails only on a missing `Sex` or
`Embarked` and succeeds on a fully observed table lacking both `Age` and
`Fare`. -/
theorem c6_required_columns :
    (∀ t : Table, t.hasCol "Age" = false →
      preprocess_data_simple t = .error (.keyError "Age")) ∧
    (∀ t : Table, t.hasCol "Age" = true → t.hasCol "Embarked" = false →
      preprocess_data_simple t = .error (.keyError "Embarked")) ∧
    (∀ t : Table, t.hasCol "Age" = true → t.hasCol "Embarked" = true →
      (∃ x ∈ t.getCol "Embarked", x.isSome = true) →
      t.hasCol "Fare" = false →
      preprocess_data_simple t = .error (.keyError "Fare")) ∧
    (∀ t : Table, t.hasCol "Age" = true → t.hasCol "Embarked" = true →
      (∃ x ∈ t.getCol "Embarked", x.isSome = true) →
      t.hasCol "Fare" = true → t.hasCol "Sex" = false →
      preprocess_data_simple t = .error (.keyError "Sex")) ∧
    (∀ (ft : List (List (Option ℚ)) → List (List ℚ)) (it : Bool) (t : Table),
      t.hasCol "Sex" = false →
      impute_missing_values ft t it = .error (.keyError "Sex")) ∧
    (∀ (ft : List (List (Option ℚ)) → List (List ℚ)) (it : Bool) (t : Table),
      t.hasCol "Sex" = true → t.hasCol "Embarked" = false →
      impute_missing_values ft t it = .error (.keyError "Embarked")) ∧
    (∀ (ft : List (List (Option ℚ)) → List (List ℚ)) (it : Bool) (t : Table),
      (∀ p ∈ t.cols, ∀ x ∈ p.2, x ≠ none) →
      t.hasCol "Sex" = true → t.hasCol "Embarked" = true →
      (∀ x ∈ t.getCol "Sex",
        x = some (.str "male") ∨ x = some (.str "female")) →
      (∀ x ∈ t.getCol "Embarked",
        x = some (.str "S") ∨ x = some (.str "C") ∨ x = some (.str "Q")) →
      t.hasCol "Age" = false → t.hasCol "Fare" = false →
      ∃ tm, impute_missing_values ft t it = .ok tm) := by
  refine ⟨?_, ?_, ?_, ?_, ?_, ?_, ?_⟩
  · intro t h
    simp [preprocess_data_simple, h]
  · intro t h1 h2
    have hE1 : (t.setCol "Age"
        (fillna (t.getCol "Age") (seriesMedian (t.getCol "Age")))).hasCol
        "Embarked" = false := by
      rw [hasCol_setCol_ne _ _ _ _ (by decide), h2]
    simp only [preprocess_data_simple]
    rw [if_neg (by simp [h1]), if_pos (by simp [hE1])]
  · intro t h1 h2 hobs h3
    obtain ⟨v, hv⟩ : ∃ v : Val, some v ∈ t.getCol "Embarked" := by
      obtain ⟨x, hx, hxs⟩ := hobs
      cases x with
      | none => simp at hxs
      | some w => exact ⟨w, hx⟩
    obtain ⟨mo, hmo⟩ := seriesModeFirst_isSome (t.getCol "Embarked") v hv
    simp only [preprocess_data_simple]
    rw [if_neg (by simp [h1])]
    set FA := fillna (t.getCol "Age") (seriesMedian (t.getCol "Age"))
    have hE1 : (t.setCol "Age" FA).hasCol "Embarked" = true := by
      rw [hasCol_setCol_ne _ _ _ _ (by decide), h2]
    rw [if_neg (by simp [hE1])]
    have hg1 : (t.setCol "Age" FA).getCol "Embarked" = t.getCol "Embarked" :=
      getCol_setCol_ne _ _ _ _ (by decide)
    rw [hg1, hmo]
    simp only []
    have hF2 : ((t.setCol "Age" FA).setCol "Embarked"
        (fillna (t.getCol "Embarked") (some mo))).hasCol "Fare" = false := by
      rw [hasCol_setCol_ne _ _ _ _ (by decide),
        hasCol_setCol_ne _ _ _ _ (by decide), h3]
    rw [if_pos (by simp [hF2])]
  · intro t h1 h2 hobs h3 h4
    obtain ⟨v, hv⟩ : ∃ v : Val, some v ∈ t.getCol "Embarked" := by
      obtain ⟨x, hx, hxs⟩ := hobs
      cases x with
      | none => simp at hxs
      | some w => exact ⟨w, hx⟩
    obtain ⟨mo, hmo⟩ := seriesModeFirst_isSome (t.getCol "Embarked") v hv
    simp only [preprocess_data_simple]
    rw [if_neg (by simp [h1])]
    set FA := fillna (t.getCol "Age") (seriesMedian (t.getCol "Age"))
    have hE1 : (t.setCol "Age" FA).hasCol "Embarked" = true := by
      rw [hasCol_setCol_ne _ _ _ _ (by decide), h2]
    rw [if_neg (by simp [hE1])]
    have hg1 : (t.setCol "Age" FA).getCol "Embarked" = t.getCol "Embarked" :=
      getCol_setCol_ne _ _ _ _ (by decide)
    rw [hg1, hmo]
    simp only []
    set T2 := (t.setCol "Age" FA).setCol "Embarked"
      (fillna (t.getCol "Embarked") (some mo)) with hT2
    have hF2 : T2.hasCol "Fare" = true := by
      rw [hT2, hasCol_setCol_ne _ _ _ _ (by decide),
        hasCol_setCol_ne _ _ _ _ (by decide), h3]
    rw [if_neg (by simp [hF2])]
    have hS3 : ((T2.setCol "Fare"
        (fillna (T2.getCol "Fare") (seriesMedian (T2.getCol "Fare")))).dropCol
        "Cabin").hasCol "Sex" = false := by
      rw [hasCol_dropCol_ne _ _ _ (by decide),
        hasCol_setCol_ne _ _ _ _ (by decide), hT2,
        hasCol_setCol_ne _ _ _ _ (by decide),
        hasCol_setCol_ne _ _ _ _ (by decide), h4]
    rw [if_pos (by simp [hS3])]
  · intro ft it t h
    have hS0 : (((t.dropCol "Cabin").dropCol "Ticket").dropCol
        "PassengerId").hasCol "Sex" = false := by
      rw [hasCol_dropCol_ne _ _ _ (by decide),
        hasCol_dropCol_ne _ _ _ (by decide),
        hasCol_dropCol_ne _ _ _ (by decide), h]
    have hfr : df_impute_frame t = .error (.keyError "Sex") := by
      simp only [df_impute_frame]
      rw [if_pos (by simp [hS0])]
    simp [impute_missing_values, hfr]
  · intro ft it t h1 h2
    have hS0 : (((t.dropCol "Cabin").dropCol "Ticket").dropCol
        "PassengerId").hasCol "Sex" = true := by
      rw [hasCol_dropCol_ne _ _ _ (by decide),
        hasCol_dropCol_ne _ _ _ (by decide),
        hasCol_dropCol_ne _ _ _ (by decide), h1]
    have hE1 : ((((t.dropCol "Cabin").dropCol "Ticket").dropCol
        "PassengerId").setCol "Sex"
          (((((t.dropCol "Cabin").dropCol "Ticket").dropCol
            "PassengerId").getCol "Sex").map mapSex)).hasCol "Embarked"
        = false := by
      rw [hasCol_setCol_ne _ _ _ _ (by decide),
        hasCol_dropCol_ne _ _ _ (by decide),
        hasCol_dropCol_ne _ _ _ (by decide),
        hasCol_dropCol_ne _ _ _ (by decide), h2]
    have hfr : df_impute_frame t = .error (.keyError "Embarked") := by
      simp only [df_impute_frame]
      rw [if_neg (by simp [hS0]), if_pos (by simp [hE1])]
    simp [impute_missing_values, hfr]
  · intro ft it t hnm hS hE hsx hem _ _
    obtain ⟨tm, htm, _⟩ := impute_complete_frame t hnm hS hE hsx hem it ft
    exact ⟨tm, htm⟩

/-- Witness for `c6_required_columns` at concrete frames. -/
theorem c6_witness :
    preprocess_data_simple noAgeFareTable = .error (.keyError "Age") ∧
    preprocess_data_simple age20Table = .error (.keyError "Embarked") ∧
    preprocess_data_simple noFareTable = .error (.keyError "Fare") ∧
    preprocess_data_simple noSexTable = .error (.keyError "Sex") ∧
    impute_missing_values ftZero noSibSpTable true
      = .error (.keyError "Sex") ∧
    impute_missing_values ftZero onlySexTable true
      = .error (.keyError "Embarked") ∧
    (∃ tm, impute_missing_values ftZero noAgeFareTable true = .ok tm) :=
  ⟨c6_required_columns.1 noAgeFareTable (by decide),
   c6_required_columns.2.1 age20Table (by decide) (by decide),
   c6_required_columns.2.2.1 noFareTable (by decide) (by decide)
     (by decide) (by decide),
   c6_required_columns.2.2.2.1 noSexTable (by decide) (by decide)
     (by decide) (by decide) (by decide),
   c6_required_columns.2.2.2.2.1 ftZero true noSibSpTable (by decide),
   c6_required_columns.2.2.2.2.2.1 ftZero true onlySexTable (by decide)
     (by decide),
   c6_required_columns.2.2.2.2.2.2 ftZero true noAgeFareTable (by decide)
     (by decide) (by decide) (by decide) (by decide) (by decide) (by decide)⟩

/-! ## Helpers for the pipeline completeness claim -/

theorem exists_of_mem_zipWith {α β γ : Type} {f : α → β → γ} {as : List α}
    {bs : List β} {c : γ} (hc : c ∈ List.zipWith f as bs) :
    ∃ a ∈ as, ∃ b ∈ bs, c = f a b := by
  induction as generalizing bs with
  | nil => simp at hc
  | cons a as ih =>
    cases bs with
    | nil => simp at hc
    | cons b bs =>
      rw [List.zipWith_cons_cons] at hc
      rcases List.mem_cons.1 hc with h | h
      · exact ⟨a, by simp, b, by simp, h⟩
      · obtain ⟨a', ha', b', hb', hfb⟩ := ih h
        exact ⟨a', by simp [ha'], b', by simp [hb'], hfb⟩

theorem buildDF_hasCol (cs : List String) (m : List (List ℚ)) (c : String)
    (h : c ∈ cs) : (buildDF cs m).hasCol c = true := by
  obtain ⟨i, hi⟩ := List.mem_iff_get?.1 h
  have hmem : (i, c) ∈ cs.enum := List.mem_enum_iff_getElem?.2 (by simpa using hi)
  exact (hasCol_iff _ c).2
    ⟨(c, m.map (fun r => some (Val.num (r.getD i 0)))),
     List.mem_map.2 ⟨(i, c), hmem, rfl⟩, rfl⟩

theorem buildDF_getCol_num (cs : List String) (m : List (List ℚ)) (c : String) :
    ∀ x ∈ (buildDF cs m).getCol c, ∃ q, x = some (Val.num q) := by
  intro x hx
  obtain ⟨p, hp, hxp⟩ := mem_getCol_mem_cols _ _ _ hx
  obtain ⟨e, _, rfl⟩ := List.mem_map.1 hp
  obtain ⟨r, _, rfl⟩ := List.mem_map.1 hxp
  exact ⟨_, rfl⟩

theorem getCol_complete_of_missing_nil (t : Table)
    (h : missingColNames t = []) : ∀ c, ∀ x ∈ t.getCol c, x ≠ none := by
  intro c x hx
  obtain ⟨p, hp, hxp⟩ := mem_getCol_mem_cols t c x hx
  unfold missingColNames at h
  have hfil := List.map_eq_nil_iff.1 h
  rw [List.filter_eq_nil_iff] at hfil
  have hany := hfil p hp
  rw [Bool.not_eq_true, List.any_eq_false] at hany
  have hxn := hany x hxp
  intro hxe
  subst hxe
  simp at hxn

theorem mem_imputeCols (dfi : Table) (b : Bool) (c : String)
    (hc : c ≠ "Survived") (h : dfi.hasCol c = true) :
    c ∈ (if b then dfi.cols.map (fun p => p.1)
         else (dfi.cols.map (fun p => p.1)).filter (fun c => c != "Survived")) := by
  have hmem : c ∈ dfi.cols.map (fun p => p.1) := by
    obtain ⟨p, hp, hpc⟩ := (hasCol_iff dfi c).1 h
    exact List.mem_map.2 ⟨p, hp, hpc⟩
  split
  · exact hmem
  · exact List.mem_filter.2 ⟨hmem, by simp [hc]⟩

/-! ## Completeness through the feature-engineering batch -/

theorem engineer_complete (t : Table)
    (hSib : t.hasCol "SibSp" = true) (hPar : t.hasCol "Parch" = true)
    (hName : t.hasCol "Name" = true)
    (hsibnum : ∀ x ∈ t.getCol "SibSp", ∃ q, x = some (Val.num q))
    (hparnum : ∀ x ∈ t.getCol "Parch", ∃ q, x = some (Val.num q)) :
    ∃ tf, engineer_all_features t = .ok tf ∧
      colComplete tf "FamilySize" ∧ colComplete tf "IsAlone" ∧
      colComplete tf "Title" ∧
      (∀ c, colComplete t c → c ≠ "FamilySize" → c ≠ "IsAlone" →
        c ≠ "Title" → c ≠ "FareBin" → c ≠ "AgeBin" → colComplete tf c) := by
  have hfam : create_family_size t = .ok (t.setCol "FamilySize"
      ((List.zipWith cellAdd (t.getCol "SibSp") (t.getCol "Parch")).map
        (fun c => cellAdd c (some (.num 1))))) := by
    unfold create_family_size
    rw [if_neg (by simp [hSib]), if_neg (by simp [hPar])]
  set FS := (List.zipWith cellAdd (t.getCol "SibSp") (t.getCol "Parch")).map
    (fun c => cellAdd c (some (Val.num 1))) with hFS
  set t1 := t.setCol "FamilySize" FS with ht1
  have hFSnum : ∀ x ∈ FS, ∃ q, x = some (Val.num q) := by
    intro x hx
    rw [hFS] at hx
    obtain ⟨z, hz, rfl⟩ := List.mem_map.1 hx
    obtain ⟨a, ha, b, hb, rfl⟩ := exists_of_mem_zipWith hz
    obtain ⟨qa, rfl⟩ := hsibnum a ha
    obtain ⟨qb, rfl⟩ := hparnum b hb
    exact ⟨qa + qb + 1, rfl⟩
  have hfam1 : t1.hasCol "FamilySize" = true := hasCol_setCol_same _ _ _
  have hisal : create_is_alone t1 = .ok (t1.setCol "IsAlone"
      ((t1.getCol "FamilySize").map
        (fun c => some (.num (if c = some (.num 1) then 1 else 0))))) := by
    unfold create_is_alone
    rw [if_pos hfam1]
  set t2 := t1.setCol "IsAlone" ((t1.getCol "FamilySize").map
    (fun c => some (Val.num (if c = some (.num 1) then 1 else 0)))) with ht2
  have hname2 : t2.hasCol "Name" = true := by
    rw [ht2, hasCol_setCol_ne _ _ _ _ (by decide), ht1,
      hasCol_setCol_ne _ _ _ _ (by decide), hName]
  have htit : create_title_feature t2 = t2.setCol "Title"
      ((t2.getCol "Name").map (fun c => some (.num (titleCode c)))) := by
    unfold create_title_feature
    rw [if_neg (by simp [hname2])]
  set t3 := t2.setCol "Title" ((t2.getCol "Name").map
    (fun c => some (Val.num (titleCode c)))) with ht3
  have hfarestep : ∀ c, c ≠ "FareBin" →
      (create_fare_bins t3).getCol c = t3.getCol c ∧
      (create_fare_bins t3).hasCol c = t3.hasCol c := by
    intro c hc
    unfold create_fare_bins
    by_cases hf : t3.hasCol "Fare" = true
    · rw [if_neg (by simp [hf])]
      exact ⟨getCol_setCol_ne _ _ _ _ hc, hasCol_setCol_ne _ _ _ _ hc⟩
    · rw [if_pos (by simp [hf])]
      exact ⟨rfl, rfl⟩
  have hagestep : ∀ c, c ≠ "AgeBin" →
      (create_age_bins (create_fare_bins t3)).getCol c
        = (create_fare_bins t3).getCol c ∧
      (create_age_bins (create_fare_bins t3)).hasCol c
        = (create_fare_bins t3).hasCol c := by
    intro c hc
    unfold create_age_bins
    by_cases ha : (create_fare_bins t3).hasCol "Age" = true
    · rw [if_neg (by simp [ha])]
      exact ⟨getCol_setCol_ne _ _ _ _ hc, hasCol_setCol_ne _ _ _ _ hc⟩
    · rw [if_pos (by simp [ha])]
      exact ⟨rfl, rfl⟩
  have hstep : ∀ c, c ≠ "FareBin" → c ≠ "AgeBin" →
      (create_age_bins (create_fare_bins t3)).getCol c = t3.getCol c ∧
      (create_age_bins (create_fare_bins t3)).hasCol c = t3.hasCol c := by
    intro c hcf hca
    obtain ⟨h1, h2⟩ := hagestep c hca
    obtain ⟨h3, h4⟩ := hfarestep c hcf
    exact ⟨h1.trans h3, h2.trans h4⟩
  have hrun : engineer_all_features t
      = .ok (create_age_bins (create_fare_bins t3)) := by
    simp only [engineer_all_features]
    rw [hfam]
    simp only []
    rw [hisal]
    simp only []
    rw [htit]
  refine ⟨create_age_bins (create_fare_bins t3), hrun, ?_, ?_, ?_, ?_⟩
  · constructor
    · rw [(hstep "FamilySize" (by decide) (by decide)).2, ht3,
        hasCol_setCol_ne _ _ _ _ (by decide), ht2,
        hasCol_setCol_ne _ _ _ _ (by decide), hfam1]
    · intro x hx
      rw [(hstep "FamilySize" (by decide) (by decide)).1, ht3,
        getCol_setCol_ne _ _ _ _ (by decide), ht2,
        getCol_setCol_ne _ _ _ _ (by decide), ht1, getCol_setCol_same] at hx
      obtain ⟨q, rfl⟩ := hFSnum x hx
      simp
  · constructor
    · rw [(hstep "IsAlone" (by decide) (by decide)).2, ht3,
        hasCol_setCol_ne _ _ _ _ (by decide), ht2, hasCol_setCol_same]
    · intro x hx
      rw [(hstep "IsAlone" (by decide) (by decide)).1, ht3,
        getCol_setCol_ne _ _ _ _ (by decide), ht2, getCol_setCol_same] at hx
      obtain ⟨z, _, rfl⟩ := List.mem_map.1 hx
      simp
  · constructor
    · rw [(hstep "Title" (by decide) (by decide)).2, ht3, hasCol_setCol_same]
    · intro x hx
      rw [(hstep "Title" (by decide) (by decide)).1, ht3,
        getCol_setCol_same] at hx
      obtain ⟨z, _, rfl⟩ := List.mem_map.1 hx
      simp
  · intro c hcc h1 h2 h3 h4 h5
    constructor
    · rw [(hstep c h4 h5).2, ht3, hasCol_setCol_ne _ _ _ _ h3, ht2,
        hasCol_setCol_ne _ _ _ _ h2, ht1, hasCol_setCol_ne _ _ _ _ h1]
      exact hcc.1
    · intro x hx
      rw [(hstep c h4 h5).1, ht3, getCol_setCol_ne _ _ _ _ h3, ht2,
        getCol_setCol_ne _ _ _ _ h2, ht1, getCol_setCol_ne _ _ _ _ h1] at hx
      exact hcc.2 x hx

theorem engineer_complete_cols (tm : Table) (h1 : tm.hasCol "SibSp" = true)
    (h2 : tm.hasCol "Parch" = true) (h3 : tm.hasCol "Name" = true)
    (h4 : ∀ x ∈ tm.getCol "SibSp", ∃ q, x = some (Val.num q))
    (h5 : ∀ x ∈ tm.getCol "Parch", ∃ q, x = some (Val.num q))
    (h6 : ∀ c ∈ ["Pclass", "Sex", "Age", "Fare", "Embarked"],
      colComplete tm c) :
    ∃ tf, engineer_all_features tm = .ok tf ∧
      ∀ c ∈ ["Pclass", "Sex", "Age", "SibSp", "Parch", "Fare", "Embarked",
        "FamilySize", "IsAlone", "Title"], colComplete tf c := by
  obtain ⟨tf, hrun, hFS, hIA, hTI, htrans⟩ :=
    engineer_complete tm h1 h2 h3 h4 h5
  refine ⟨tf, hrun, ?_⟩
  have hsibc : colComplete tm "SibSp" :=
    ⟨h1, fun x hx => by obtain ⟨q, rfl⟩ := h4 x hx; simp⟩
  have hparc : colComplete tm "Parch" :=
    ⟨h2, fun x hx => by obtain ⟨q, rfl⟩ := h5 x hx; simp⟩
  intro c hc
  fin_cases hc
  · exact htrans _ (h6 _ (by simp)) (by decide) (by decide) (by decide)
      (by decide) (by decide)
  · exact htrans _ (h6 _ (by simp)) (by decide) (by decide) (by decide)
      (by decide) (by decide)
  · exact htrans _ (h6 _ (by simp)) (by decide) (by decide) (by decide)
      (by decide) (by decide)
  · exact htrans _ hsibc (by decide) (by decide) (by decide)
      (by decide) (by decide)
  · exact htrans _ hparc (by decide) (by decide) (by decide)
      (by decide) (by decide)
  · exact htrans _ (h6 _ (by simp)) (by decide) (by decide) (by decide)
      (by decide) (by decide)
  · exact htrans _ (h6 _ (by simp)) (by decide) (by decide) (by decide)
      (by decide) (by decide)
  · exact hFS
  · exact hIA
  · exact hTI

theorem impute_then_engineer_complete (t : Table)
    (hP : t.hasCol "Pclass" = true) (hS : t.hasCol "Sex" = true)
    (hA : t.hasCol "Age" = true) (hSib : t.hasCol "SibSp" = true)
    (hPar : t.hasCol "Parch" = true) (hF : t.hasCol "Fare" = true)
    (hE : t.hasCol "Embarked" = true) (hName : t.hasCol "Name" = true)
    (ft : List (List (Option ℚ)) → List (List ℚ))
    (hshape : ∀ rin, (ft rin).map List.length = rin.map List.length)
    (hsibnum : ∀ x ∈ t.getCol "SibSp", x = none ∨ ∃ q, x = some (Val.num q))
    (hparnum : ∀ x ∈ t.getCol "Parch", x = none ∨ ∃ q, x = some (Val.num q)) :
    ∃ tm tf, impute_missing_values ft t true = .ok tm ∧
      engineer_all_features tm = .ok tf ∧
      ∀ c ∈ ["Pclass", "Sex", "Age", "SibSp", "Parch", "Fare", "Embarked",
        "FamilySize", "IsAlone", "Title"], colComplete tf c := by
  have hconc := engineer_complete_cols
  have hS0 : (((t.dropCol "Cabin").dropCol "Ticket").dropCol
      "PassengerId").hasCol "Sex" = true := by
    rw [hasCol_dropCol_ne _ _ _ (by decide), hasCol_dropCol_ne _ _ _ (by decide),
      hasCol_dropCol_ne _ _ _ (by decide), hS]
  set d0 := ((t.dropCol "Cabin").dropCol "Ticket").dropCol "PassengerId" with hd0
  set d1 := d0.setCol "Sex" ((d0.getCol "Sex").map mapSex) with hd1
  have hE1 : d1.hasCol "Embarked" = true := by
    rw [hd1, hasCol_setCol_ne _ _ _ _ (by decide), hd0,
      hasCol_dropCol_ne _ _ _ (by decide), hasCol_dropCol_ne _ _ _ (by decide),
      hasCol_dropCol_ne _ _ _ (by decide), hE]
  set d := d1.setCol "Embarked" ((d1.getCol "Embarked").map mapEmbarked) with hd
  have hframe : df_impute_frame t = .ok d := by
    simp only [df_impute_frame]
    rw [if_neg (by simp [hS0]), if_neg (by simp [hE1])]
  have hdother := fun (c : String) h1 h2 h3 h4 h5 =>
    df_impute_frame_ok t d hframe c h3 h4 h5 h1 h2
  have hdhS : d.hasCol "Sex" = true := by
    rw [hd, hasCol_setCol_ne _ _ _ _ (by decide), hd1, hasCol_setCol_same]
  have hdhE : d.hasCol "Embarked" = true := by
    rw [hd, hasCol_setCol_same]
  have hnamed : d.hasCol "Name" = true := by
    rw [(hdother "Name" (by decide) (by decide) (by decide) (by decide)
      (by decide)).2, hName]
  have hdfih : ∀ c : String, c ≠ "Name" →
      (d.dropCol "Name").hasCol c = d.hasCol c :=
    fun c hc => hasCol_dropCol_ne _ _ _ hc
  have hdfig : ∀ c : String, c ≠ "Name" →
      (d.dropCol "Name").getCol c = d.getCol c :=
    fun c hc => getCol_dropCol_ne _ _ _ hc
  simp only [impute_missing_values]
  rw [hframe]
  simp only []
  rw [if_pos hnamed]
  by_cases hm : missingColNames (d.dropCol "Name") ≠ []
  · rw [if_pos hm]
    set IC := (if true && (d.dropCol "Name").hasCol "Survived" then
        (d.dropCol "Name").cols.map (fun p => p.1)
      else ((d.dropCol "Name").cols.map (fun p => p.1)).filter
        (fun c => c != "Survived")) with hIC
    set rows := (List.range (d.dropCol "Name").nrows).map
      (fun i => IC.map
        (fun c => cellNum (((d.dropCol "Name").getCol c).getD i none)))
      with hrows
    have hmlen : (ft rows).length = (d.dropCol "Name").nrows := by
      have hlen := congrArg List.length (hshape rows)
      rw [List.length_map, List.length_map] at hlen
      rw [hlen, hrows, List.length_map, List.length_range]
    have hrowlen : ∀ r ∈ ft rows, r.length = IC.length := by
      intro r hr
      have h1 : r.length ∈ (ft rows).map List.length :=
        List.mem_map_of_mem _ hr
      rw [hshape rows, hrows, List.map_map] at h1
      obtain ⟨i, _, hieq⟩ := List.mem_map.1 h1
      simpa using hieq.symm
    have hshapeok : ((ft rows).length != (d.dropCol "Name").nrows
        || (ft rows).any (fun r => r.length != IC.length)) = false := by
      rw [Bool.or_eq_false_iff]
      constructor
      · simp [hmlen]
      · rw [List.any_eq_false]
        intro r hr
        simp [hrowlen r hr]
    rw [if_neg (by simp [hshapeok])]
    rw [if_neg (by simp)]
    simp only []
    have hbuildh : ∀ c : String, c ≠ "Survived" → c ≠ "Name" →
        d.hasCol c = true → (buildDF IC (ft rows)).hasCol c = true := by
      intro c hc hcn hdc
      refine buildDF_hasCol _ _ _ ?_
      rw [hIC]
      exact mem_imputeCols (d.dropCol "Name") _ c hc
        (by rw [hdfih c hcn, hdc])
    set tmv := (buildDF IC (ft rows)).setCol "Name" (d.getCol "Name") with htmv
    have hnum : ∀ (c : String), c ≠ "Name" →
        ∀ x ∈ tmv.getCol c, ∃ q, x = some (Val.num q) := by
      intro c hc x hx
      rw [htmv, getCol_setCol_ne _ _ _ _ hc] at hx
      exact buildDF_getCol_num _ _ _ x hx
    have hcolc : ∀ c : String, c ≠ "Survived" → c ≠ "Name" →
        d.hasCol c = true → colComplete tmv c := by
      intro c hc hcn hdc
      refine ⟨?_, ?_⟩
      · rw [htmv, hasCol_setCol_ne _ _ _ _ hcn, hbuildh c hc hcn hdc]
      · intro x hx
        obtain ⟨q, rfl⟩ := hnum c hcn x hx
        simp
    have hdSib : d.hasCol "SibSp" = true :=
      ((hdother "SibSp" (by decide) (by decide) (by decide) (by decide)
        (by decide)).2).trans hSib
    have hdPar : d.hasCol "Parch" = true :=
      ((hdother "Parch" (by decide) (by decide) (by decide) (by decide)
        (by decide)).2).trans hPar
    obtain ⟨tf, hrun, hcols⟩ := hconc tmv
      (hcolc "SibSp" (by decide) (by decide) hdSib).1
      (hcolc "Parch" (by decide) (by decide) hdPar).1
      (by rw [htmv, hasCol_setCol_same])
      (fun x hx => hnum "SibSp" (by decide) x hx)
      (fun x hx => hnum "Parch" (by decide) x hx)
      (by
        intro c hc
        fin_cases hc
        · exact hcolc "Pclass" (by decide) (by decide)
            (((hdother "Pclass" (by decide) (by decide) (by decide) (by decide)
              (by decide)).2).trans hP)
        · exact hcolc "Sex" (by decide) (by decide) hdhS
        · exact hcolc "Age" (by decide) (by decide)
            (((hdother "Age" (by decide) (by decide) (by decide) (by decide)
              (by decide)).2).trans hA)
        · exact hcolc "Fare" (by decide) (by decide)
            (((hdother "Fare" (by decide) (by decide) (by decide) (by decide)
              (by decide)).2).trans hF)
        · exact hcolc "Embarked" (by decide) (by decide) hdhE)
    exact ⟨tmv, tf, rfl, hrun, hcols⟩
  · rw [if_neg hm]
    simp only []
    have hcm : missingColNames (d.dropCol "Name") = [] := by
      simpa using hm
    have hdficomp := getCol_complete_of_missing_nil _ hcm
    set tmv := (d.dropCol "Name").setCol "Name" (d.getCol "Name") with htmv
    have htmg : ∀ c : String, c ≠ "Name" →
        tmv.getCol c = (d.dropCol "Name").getCol c :=
      fun c hc => getCol_setCol_ne _ _ _ _ hc
    have hcolc : ∀ c : String, c ≠ "Name" → d.hasCol c = true →
        colComplete tmv c := by
      intro c hc hdc
      refine ⟨?_, ?_⟩
      · rw [htmv, hasCol_setCol_ne _ _ _ _ hc, hdfih c hc, hdc]
      · intro x hx
        rw [htmg c hc] at hx
        exact hdficomp c x hx
    have hnumc : ∀ c : String, c ≠ "Name" →
        (∀ x ∈ t.getCol c, x = none ∨ ∃ q, x = some (Val.num q)) →
        d.getCol c = t.getCol c →
        ∀ x ∈ tmv.getCol c, ∃ q, x = some (Val.num q) := by
      intro c hc hnums hdg x hx
      have hxd : x ∈ (d.dropCol "Name").getCol c := by
        rw [← htmg c hc]; exact hx
      have hxne := hdficomp c x hxd
      have hxt : x ∈ t.getCol c := by
        rw [← hdg, ← hdfig c hc]; exact hxd
      rcases hnums x hxt with rfl | hq
      · exact absurd rfl hxne
      · exact hq
    have hdSibg : d.getCol "SibSp" = t.getCol "SibSp" :=
      (hdother "SibSp" (by decide) (by decide) (by decide) (by decide)
        (by decide)).1
    have hdParg : d.getCol "Parch" = t.getCol "Parch" :=
      (hdother "Parch" (by decide) (by decide) (by decide) (by decide)
        (by decide)).1
    have hdSib : d.hasCol "SibSp" = true :=
      ((hdother "SibSp" (by decide) (by decide) (by decide) (by decide)
        (by decide)).2).trans hSib
    have hdPar : d.hasCol "Parch" = true :=
      ((hdother "Parch" (by decide) (by decide) (by decide) (by decide)
        (by decide)).2).trans hPar
    obtain ⟨tf, hrun, hcols⟩ := hconc tmv
      (hcolc "SibSp" (by decide) hdSib).1
      (hcolc "Parch" (by decide) hdPar).1
      (by rw [htmv, hasCol_setCol_same])
      (hnumc "SibSp" (by decide) hsibnum hdSibg)
      (hnumc "Parch" (by decide) hparnum hdParg)
      (by
        intro c hc
        fin_cases hc
        · exact hcolc "Pclass" (by decide)
            (((hdother "Pclass" (by decide) (by decide) (by decide) (by decide)
              (by decide)).2).trans hP)
        · exact hcolc "Sex" (by decide) hdhS
        · exact hcolc "Age" (by decide)
            (((hdother "Age" (by decide) (by decide) (by decide) (by decide)
              (by decide)).2).trans hA)
        · exact hcolc "Fare" (by decide)
            (((hdother "Fare" (by decide) (by decide) (by decide) (by decide)
              (by decide)).2).trans hF)
        · exact hcolc "Embarked" (by decide) hdhE)
    exact ⟨tmv, tf, rfl, hrun, hcols⟩

theorem sortedInsert_length (a : ℚ) (l : List ℚ) :
    (sortedInsert a l).length = l.length + 1 := by
  induction l with
  | nil => rfl
  | cons b bs ih =>
    unfold sortedInsert
    by_cases h : a ≤ b
    · rw [if_pos h]
      simp
    · rw [if_neg h]
      simp [ih]

theorem sortAsc_length (l : List ℚ) : (sortAsc l).length = l.length := by
  induction l with
  | nil => rfl
  | cons a as ih =>
    unfold sortAsc
    rw [sortedInsert_length, ih]
    simp

/-- Pandas `series.median()` is an actual number as soon as the series
holds at least one numeric entry. -/
theorem seriesMedian_isSome (xs : List Cell)
    (h : ∃ x ∈ xs, (cellNum x).isSome = true) :
    ∃ m : ℚ, seriesMedian xs = some (.num m) := by
  obtain ⟨x, hx, hxs⟩ := h
  obtain ⟨q, hq⟩ := Option.isSome_iff_exists.1 hxs
  have hmem : q ∈ xs.filterMap cellNum := List.mem_filterMap.2 ⟨x, hx, hq⟩
  have hne : ¬ (sortAsc (xs.filterMap cellNum)).length = 0 := by
    rw [sortAsc_length]
    exact Nat.pos_iff_ne_zero.1 (List.length_pos_of_mem hmem)
  simp only [seriesMedian]
  rw [if_neg hne]
  by_cases hodd : (sortAsc (xs.filterMap cellNum)).length % 2 = 1
  · rw [if_pos hodd]
    exact ⟨_, rfl⟩
  · rw [if_neg hodd]
    exact ⟨_, rfl⟩

theorem foldl_minBy_mem (le : Val → Val → Bool) (a : Val) (as : List Val) :
    as.foldl (fun acc v => if le v acc then v else acc) a ∈ a :: as := by
  induction as generalizing a with
  | nil => simp
  | cons b bs ih =>
    rw [List.foldl_cons]
    rcases List.mem_cons.1 (ih (if le b a then b else a)) with h | h
    · rw [h]
      by_cases hle : le b a = true
      · rw [if_pos hle]
        simp
      · rw [if_neg hle]
        simp
    · simp [h]

theorem listMinBy_mem (le : Val → Val → Bool) (l : List Val) (v : Val)
    (h : listMinBy le l = some v) : v ∈ l := by
  cases l with
  | nil => simp [listMinBy] at h
  | cons a as =>
    simp only [listMinBy] at h
    injection h with h
    rw [← h]
    exact foldl_minBy_mem le a as

/-- Pandas `series.mode()[0]` always returns one of the observed values. -/
theorem seriesModeFirst_mem (xs : List Cell) (v : Val)
    (h : seriesModeFirst xs = some v) : some v ∈ xs := by
  simp only [seriesModeFirst] at h
  have hmem := listMinBy_mem _ _ _ h
  have hv := (List.mem_filter.1 hmem).1
  obtain ⟨c, hc, hcv⟩ := List.mem_filterMap.1 hv
  simp only [id_eq] at hcv
  rw [hcv] at hc
  exact hc

/-- Step `preprocess_data(use_mice_imputation=False)` on a frame whose
`Age` and `Fare` columns hold at least one numeric entry each and whose
`Embarked` column holds at least one observed value, observed values in
the dictionary: the branch succeeds, genuinely filling the missing
entries — the four touched columns come out complete, every other column
except the dropped `Cabin` untouched. -/
theorem preprocess_simple_fills (t : Table)
    (hA : t.hasCol "Age" = true) (hE : t.hasCol "Embarked" = true)
    (hF : t.hasCol "Fare" = true) (hS : t.hasCol "Sex" = true)
    (hAnum : ∃ x ∈ t.getCol "Age", (cellNum x).isSome = true)
    (hFnum : ∃ x ∈ t.getCol "Fare", (cellNum x).isSome = true)
    (hEobs : ∃ x ∈ t.getCol "Embarked", x.isSome = true)
    (hsx : ∀ x ∈ t.getCol "Sex",
      x = some (.str "male") ∨ x = some (.str "female"))
    (hem : ∀ x ∈ t.getCol "Embarked", x = none ∨
      x = some (.str "S") ∨ x = some (.str "C") ∨ x = some (.str "Q")) :
    ∃ ts, preprocess_data_simple t = .ok ts ∧
      colComplete ts "Sex" ∧ colComplete ts "Embarked" ∧
      colComplete ts "Age" ∧ colComplete ts "Fare" ∧
      (∀ c, c ≠ "Sex" → c ≠ "Embarked" → c ≠ "Cabin" → c ≠ "Age" →
        c ≠ "Fare" → ts.getCol c = t.getCol c ∧ ts.hasCol c = t.hasCol c) := by
  obtain ⟨mA, hmA⟩ := seriesMedian_isSome (t.getCol "Age") hAnum
  obtain ⟨mF, hmF⟩ := seriesMedian_isSome (t.getCol "Fare") hFnum
  obtain ⟨v, hv⟩ : ∃ v : Val, some v ∈ t.getCol "Embarked" := by
    obtain ⟨x, hx, hxs⟩ := hEobs
    cases x with
    | none => simp at hxs
    | some w => exact ⟨w, hx⟩
  obtain ⟨mo, hmo⟩ := seriesModeFirst_isSome (t.getCol "Embarked") v hv
  have hmoval := seriesModeFirst_mem (t.getCol "Embarked") mo hmo
  have hmokind : mo = .str "S" ∨ mo = .str "C" ∨ mo = .str "Q" := by
    rcases hem _ hmoval with h | h | h | h
    · cases h
    · exact Or.inl (Option.some.inj h)
    · exact Or.inr (Or.inl (Option.some.inj h))
    · exact Or.inr (Or.inr (Option.some.inj h))
  simp only [preprocess_data_simple]
  rw [if_neg (by simp [hA]), hmA]
  set FA := fillna (t.getCol "Age") (some (Val.num mA)) with hFA
  have hE1 : (t.setCol "Age" FA).hasCol "Embarked" = true := by
    rw [hasCol_setCol_ne _ _ _ _ (by decide), hE]
  rw [if_neg (by simp [hE1])]
  have hg1 : (t.setCol "Age" FA).getCol "Embarked" = t.getCol "Embarked" :=
    getCol_setCol_ne _ _ _ _ (by decide)
  rw [hg1, hmo]
  simp only []
  set FE := fillna (t.getCol "Embarked") (some mo) with hFE
  set T2 := (t.setCol "Age" FA).setCol "Embarked" FE with hT2
  have hF2 : T2.hasCol "Fare" = true := by
    rw [hT2, hasCol_setCol_ne _ _ _ _ (by decide),
      hasCol_setCol_ne _ _ _ _ (by decide), hF]
  rw [if_neg (by simp [hF2])]
  have hg2 : T2.getCol "Fare" = t.getCol "Fare" := by
    rw [hT2, getCol_setCol_ne _ _ _ _ (by decide),
      getCol_setCol_ne _ _ _ _ (by decide)]
  rw [hg2, hmF]
  set FF := fillna (t.getCol "Fare") (some (Val.num mF)) with hFF
  set T4 := (T2.setCol "Fare" FF).dropCol "Cabin" with hT4
  have hS3 : T4.hasCol "Sex" = true := by
    rw [hT4, hasCol_dropCol_ne _ _ _ (by decide),
      hasCol_setCol_ne _ _ _ _ (by decide), hT2,
      hasCol_setCol_ne _ _ _ _ (by decide),
      hasCol_setCol_ne _ _ _ _ (by decide), hS]
  rw [if_neg (by simp [hS3])]
  have hg3 : T4.getCol "Sex" = t.getCol "Sex" := by
    rw [hT4, getCol_dropCol_ne _ _ _ (by decide),
      getCol_setCol_ne _ _ _ _ (by decide), hT2,
      getCol_setCol_ne _ _ _ _ (by decide),
      getCol_setCol_ne _ _ _ _ (by decide)]
  rw [hg3]
  set T5 := T4.setCol "Sex" ((t.getCol "Sex").map mapSex) with hT5
  have hg4 : T5.getCol "Embarked" = FE := by
    rw [hT5, getCol_setCol_ne _ _ _ _ (by decide), hT4,
      getCol_dropCol_ne _ _ _ (by decide),
      getCol_setCol_ne _ _ _ _ (by decide), hT2, getCol_setCol_same]
  rw [hg4]
  refine ⟨T5.setCol "Embarked" (FE.map mapEmbarked), rfl, ?_, ?_, ?_, ?_, ?_⟩
  · constructor
    · rw [hasCol_setCol_ne _ _ _ _ (by decide), hT5, hasCol_setCol_same]
    · intro x hx
      rw [getCol_setCol_ne _ _ _ _ (by decide), hT5, getCol_setCol_same] at hx
      obtain ⟨y, hy, rfl⟩ := List.mem_map.1 hx
      rcases hsx y hy with rfl | rfl <;> simp [mapSex]
  · constructor
    · rw [hasCol_setCol_same]
    · intro x hx
      rw [getCol_setCol_same] at hx
      obtain ⟨y, hy, rfl⟩ := List.mem_map.1 hx
      rw [hFE] at hy
      unfold fillna at hy
      obtain ⟨c, hc, rfl⟩ := List.mem_map.1 hy
      cases c with
      | none =>
        rcases hmokind with rfl | rfl | rfl <;> simp [mapEmbarked]
      | some w =>
        rcases hem _ hc with h | h | h | h
        · cases h
        · rw [Option.some.inj h]
          simp [mapEmbarked]
        · rw [Option.some.inj h]
          simp [mapEmbarked]
        · rw [Option.some.inj h]
          simp [mapEmbarked]
  · constructor
    · rw [hasCol_setCol_ne _ _ _ _ (by decide), hT5,
        hasCol_setCol_ne _ _ _ _ (by decide), hT4,
        hasCol_dropCol_ne _ _ _ (by decide),
        hasCol_setCol_ne _ _ _ _ (by decide), hT2,
        hasCol_setCol_ne _ _ _ _ (by decide), hasCol_setCol_same]
    · intro x hx
      rw [getCol_setCol_ne _ _ _ _ (by decide), hT5,
        getCol_setCol_ne _ _ _ _ (by decide), hT4,
        getCol_dropCol_ne _ _ _ (by decide),
        getCol_setCol_ne _ _ _ _ (by decide), hT2,
        getCol_setCol_ne _ _ _ _ (by decide), getCol_setCol_same, hFA] at hx
      exact fillna_some_complete _ _ x hx
  · constructor
    · rw [hasCol_setCol_ne _ _ _ _ (by decide), hT5,
        hasCol_setCol_ne _ _ _ _ (by decide), hT4,
        hasCol_dropCol_ne _ _ _ (by decide), hasCol_setCol_same]
    · intro x hx
      rw [getCol_setCol_ne _ _ _ _ (by decide), hT5,
        getCol_setCol_ne _ _ _ _ (by decide), hT4,
        getCol_dropCol_ne _ _ _ (by decide), getCol_setCol_same, hFF] at hx
      exact fillna_some_complete _ _ x hx
  · intro c h1 h2 h3 h4 h5
    constructor
    · rw [getCol_setCol_ne _ _ _ _ h2, hT5, getCol_setCol_ne _ _ _ _ h1, hT4,
        getCol_dropCol_ne _ _ _ h3, getCol_setCol_ne _ _ _ _ h5, hT2,
        getCol_setCol_ne _ _ _ _ h2, getCol_setCol_ne _ _ _ _ h4]
    · rw [hasCol_setCol_ne _ _ _ _ h2, hT5, hasCol_setCol_ne _ _ _ _ h1, hT4,
        hasCol_dropCol_ne _ _ _ h3, hasCol_setCol_ne _ _ _ _ h5, hT2,
        hasCol_setCol_ne _ _ _ _ h2, hasCol_setCol_ne _ _ _ _ h4]

theorem simple_fills_then_engineer (t : Table)
    (hP : t.hasCol "Pclass" = true) (hS : t.hasCol "Sex" = true)
    (hA : t.hasCol "Age" = true) (hSib : t.hasCol "SibSp" = true)
    (hPar : t.hasCol "Parch" = true) (hF : t.hasCol "Fare" = true)
    (hE : t.hasCol "Embarked" = true) (hName : t.hasCol "Name" = true)
    (hPobs : ∀ x ∈ t.getCol "Pclass", x ≠ none)
    (hAnum : ∃ x ∈ t.getCol "Age", (cellNum x).isSome = true)
    (hFnum : ∃ x ∈ t.getCol "Fare", (cellNum x).isSome = true)
    (hEobs : ∃ x ∈ t.getCol "Embarked", x.isSome = true)
    (hsx : ∀ x ∈ t.getCol "Sex",
      x = some (.str "male") ∨ x = some (.str "female"))
    (hem : ∀ x ∈ t.getCol "Embarked", x = none ∨
      x = some (.str "S") ∨ x = some (.str "C") ∨ x = some (.str "Q"))
    (hsibnum : ∀ x ∈ t.getCol "SibSp", ∃ q, x = some (Val.num q))
    (hparnum : ∀ x ∈ t.getCol "Parch", ∃ q, x = some (Val.num q)) :
    ∃ ts tf, preprocess_data_simple t = .ok ts ∧
      engineer_all_features ts = .ok tf ∧
      ∀ c ∈ ["Pclass", "Sex", "Age", "SibSp", "Parch", "Fare", "Embarked",
        "FamilySize", "IsAlone", "Title"], colComplete tf c := by
  obtain ⟨ts, hts, hSexC, hEmbC, hAgeC, hFareC, hother⟩ :=
    preprocess_simple_fills t hA hE hF hS hAnum hFnum hEobs hsx hem
  have hsib := hother "SibSp" (by decide) (by decide) (by decide) (by decide)
    (by decide)
  have hpar := hother "Parch" (by decide) (by decide) (by decide) (by decide)
    (by decide)
  have hnamf := hother "Name" (by decide) (by decide) (by decide) (by decide)
    (by decide)
  have hpcl := hother "Pclass" (by decide) (by decide) (by decide) (by decide)
    (by decide)
  obtain ⟨tf, hrun, hcols⟩ := engineer_complete_cols ts
    (hsib.2.trans hSib) (hpar.2.trans hPar) (hnamf.2.trans hName)
    (by rw [hsib.1]; exact hsibnum)
    (by rw [hpar.1]; exact hparnum)
    (by
      intro c hc
      fin_cases hc
      · exact ⟨hpcl.2.trans hP, by rw [hpcl.1]; exact hPobs⟩
      · exact hSexC
      · exact hAgeC
      · exact hFareC
      · exact hEmbC)
  exact ⟨ts, tf, hts, hrun, hcols⟩

/-! ## Claim C1: no missing values after imputation plus feature batch -/

theorem ftZero_shape :
    ∀ rin, (ftZero rin).map List.length = rin.map List.length := by
  intro rin
  unfold ftZero
  rw [List.map_map]
  apply List.map_congr_left
  intro r _
  simp

/-- C1 (amended): for a table with the standard schema, imputation followed
by the feature batch yields a table in which `Pclass, Sex, Age, SibSp,
Parch, Fare, Embarked, FamilySize, IsAlone, Title` contain no missing
values — `FareBin` and `AgeBin` are excluded, as the counterexample forces
(an age outside `(0,100]` or a single fare value leaves them missing).
The simple strategy genuinely fills missing `Age`/`Fare`/`Embarked`
entries: it needs only one numeric `Age` entry and one numeric `Fare`
entry (so the medians exist), one observed `Embarked` value (so the mode
exists), observed dictionary-valued `Sex`, observed `Pclass` and numeric
counts — the columns it never fills; the multivariate strategy needs a
shape-preserving regression imputer and numeric-or-missing counts. -/
theorem c1_pipeline_no_missing :
    ∀ t : Table,
      t.hasCol "Pclass" = true → t.hasCol "Sex" = true →
      t.hasCol "Age" = true → t.hasCol "SibSp" = true →
      t.hasCol "Parch" = true → t.hasCol "Fare" = true →
      t.hasCol "Embarked" = true → t.hasCol "Name" = true →
      (((∀ x ∈ t.getCol "Pclass", x ≠ none) →
        (∃ x ∈ t.getCol "Age", (cellNum x).isSome = true) →
        (∃ x ∈ t.getCol "Fare", (cellNum x).isSome = true) →
        (∃ x ∈ t.getCol "Embarked", x.isSome = true) →
        (∀ x ∈ t.getCol "Sex",
          x = some (.str "male") ∨ x = some (.str "female")) →
        (∀ x ∈ t.getCol "Embarked", x = none ∨
          x = some (.str "S") ∨ x = some (.str "C") ∨ x = some (.str "Q")) →
        (∀ x ∈ t.getCol "SibSp", ∃ q, x = some (.num q)) →
        (∀ x ∈ t.getCol "Parch", ∃ q, x = some (.num q)) →
        ∃ ts tf, preprocess_data_simple t = .ok ts ∧
          engineer_all_features ts = .ok tf ∧
          ∀ c ∈ ["Pclass", "Sex", "Age", "SibSp", "Parch", "Fare", "Embarked",
            "FamilySize", "IsAlone", "Title"], colComplete tf c) ∧
       (∀ ft : List (List (Option ℚ)) → List (List ℚ),
        (∀ rin, (ft rin).map List.length = rin.map List.length) →
        (∀ x ∈ t.getCol "SibSp", x = none ∨ ∃ q, x = some (.num q)) →
        (∀ x ∈ t.getCol "Parch", x = none ∨ ∃ q, x = some (.num q)) →
        ∃ tm tf, impute_missing_values ft t true = .ok tm ∧
          engineer_all_features tm = .ok tf ∧
          ∀ c ∈ ["Pclass", "Sex", "Age", "SibSp", "Parch", "Fare", "Embarked",
            "FamilySize", "IsAlone", "Title"], colComplete tf c)) :=
  fun t hP hS hA hSib hPar hF hE hName =>
    ⟨fun hPobs hAnum hFnum hEobs hsx hem h1 h2 =>
       simple_fills_then_engineer t hP hS hA hSib hPar hF hE hName
         hPobs hAnum hFnum hEobs hsx hem h1 h2,
     fun ft hshape h1 h2 =>
       impute_then_engineer_complete t hP hS hA hSib hPar hF hE hName
         ft hshape h1 h2⟩

/-- Witness for `c1_pipeline_no_missing`: both parts at a two-row frame
with missing `Age`, `Fare` and `Embarked` entries — so both strategies
actually fill — the multivariate part with the shape-preserving
zero-filling imputer stand-in. -/
theorem c1_witness :
    (∃ ts tf, preprocess_data_simple titanicMissing2 = .ok ts ∧
      engineer_all_features ts = .ok tf ∧
      ∀ c ∈ ["Pclass", "Sex", "Age", "SibSp", "Parch", "Fare", "Embarked",
        "FamilySize", "IsAlone", "Title"], colComplete tf c) ∧
    (∃ tm tf, impute_missing_values ftZero titanicMissing2 true = .ok tm ∧
      engineer_all_features tm = .ok tf ∧
      ∀ c ∈ ["Pclass", "Sex", "Age", "SibSp", "Parch", "Fare", "Embarked",
        "FamilySize", "IsAlone", "Title"], colComplete tf c) :=
  ⟨(c1_pipeline_no_missing titanicMissing2 (by decide) (by decide) (by decide)
      (by decide) (by decide) (by decide) (by decide) (by decide)).1
      (by decide) (by with_unfolding_all decide)
      (by with_unfolding_all decide) (by with_unfolding_all decide)
      (by decide) (by decide)
      (by
        intro x hx
        rw [show titanicMissing2.getCol "SibSp"
            = [some (Val.num 1), some (Val.num 1)] from by
          with_unfolding_all decide] at hx
        rcases List.mem_cons.1 hx with rfl | hx
        · exact ⟨1, rfl⟩
        · rw [List.mem_singleton] at hx
          subst hx
          exact ⟨1, rfl⟩)
      (by
        intro x hx
        rw [show titanicMissing2.getCol "Parch"
            = [some (Val.num 0), some (Val.num 0)] from by
          with_unfolding_all decide] at hx
        rcases List.mem_cons.1 hx with rfl | hx
        · exact ⟨0, rfl⟩
        · rw [List.mem_singleton] at hx
          subst hx
          exact ⟨0, rfl⟩),
   (c1_pipeline_no_missing titanicMissing2 (by decide) (by decide) (by decide)
      (by decide) (by decide) (by decide) (by decide) (by decide)).2 ftZero
      ftZero_shape
      (by
        intro x hx
        rw [show titanicMissing2.getCol "SibSp"
            = [some (Val.num 1), some (Val.num 1)] from by
          with_unfolding_all decide] at hx
        rcases List.mem_cons.1 hx with rfl | hx
        · exact Or.inr ⟨1, rfl⟩
        · rw [List.mem_singleton] at hx
          subst hx
          exact Or.inr ⟨1, rfl⟩)
      (by
        intro x hx
        rw [show titanicMissing2.getCol "Parch"
            = [some (Val.num 0), some (Val.num 0)] from by
          with_unfolding_all decide] at hx
        rcases List.mem_cons.1 hx with rfl | hx
        · exact Or.inr ⟨0, rfl⟩
        · rw [List.mem_singleton] at hx
          subst hx
          exact Or.inr ⟨0, rfl⟩)⟩
